import Mathlib

/-!
# Verification of the serum-dex `MarketInstruction` codec

Shallow embedding of `crates/raydium/src/serum_dex/instruction.rs`:
the command model (`MarketInstruction` and its payload structs), the
decoder `MarketInstruction::unpack` with its per-variant unpack
routines, and the encoder `MarketInstruction::pack`.

Bytes are modelled as `List Nat` (each element intended `< 256`);
machine integers are `Nat` (unsigned) or `Int` (for `i64`) with
explicit `2 ^ w` bounds where they matter.  Fallible decoding returns
`Option`.  Potentially panicking slice accesses (`array_ref!`,
`try_into().unwrap()`) are modelled by `arrayRef`, which returns an
`Except Unit` error when the access would be out of bounds, so that
panic-freedom is a provable statement.
-/

namespace SerumDex

/-- Little-endian value of a byte list: `u{8k}::from_le_bytes`. -/
def leNat : List Nat → Nat
  | [] => 0
  | b :: rest => b + 256 * leNat rest

/-- The `w`-byte little-endian encoding of `n` (`to_le_bytes`). -/
def natToLE : Nat → Nat → List Nat
  | 0, _ => []
  | w + 1, n => n % 256 :: natToLE w (n / 256)

/-- Embeds `i64::from_le_bytes`: reinterpret the 8-byte little-endian unsigned
value as a signed two's-complement 64-bit integer. -/
def i64FromLE (l : List Nat) : Int :=
  let n := leNat l
  if n < 2 ^ 63 then (n : Int) else (n : Int) - 2 ^ 64

/-- Two's-complement unsigned image of a signed 64-bit value
(`i64::to_le_bytes` composed with `u64::from_le_bytes`). -/
def i64ToNat (x : Int) : Nat :=
  if x < 0 then (x + 2 ^ 64).toNat else x.toNat

/-- Embeds `NonZeroU64::new`: `None` on a raw 0, otherwise the value. -/
def nonZeroU64 (n : Nat) : Option Nat :=
  if n = 0 then none else some n

/-- Embeds `Iterator::collect::<Option<Vec<_>>>()`: apply `f` to each element
in order, succeeding only if every application succeeds. -/
def collectOption (f : α → Option β) : List α → Option (List β)
  | [] => some []
  | x :: xs => do
    let y ← f x
    let ys ← collectOption f xs
    pure (y :: ys)

/-- Embeds `chunks_exact(n)` over a byte list: the `len / n` complete `n`-byte
chunks, in order, any remainder dropped. -/
def chunksExact (n : Nat) (l : List Nat) : List (List Nat) :=
  (List.range (l.length / n)).map (fun i => (l.drop (n * i)).take n)

/-- Modelled from the spec: `Side` lives in `matching.rs`, which is not
under `src/`; the spec gives "Side codes: 0=Bid, 1=Ask". -/
inductive Side
  | Bid
  | Ask
deriving DecidableEq

/-- Modelled from the spec: `OrderType` lives in `matching.rs`, which
is not under `src/`; the spec gives "OrderType codes: 0=Limit,
1=ImmediateOrCancel, 2=PostOnly". -/
inductive OrderType
  | Limit
  | ImmediateOrCancel
  | PostOnly
deriving DecidableEq

/-- Embeds `SelfTradeBehavior` (`instruction.rs`): `DecrementTake = 0`,
`CancelProvide = 1`, `AbortTransaction = 2`, `repr(u8)`. -/
inductive SelfTradeBehavior
  | DecrementTake
  | CancelProvide
  | AbortTransaction
deriving DecidableEq

/-- Modelled from the spec: `Side::try_from_primitive` after the `u32 →
u8` `try_into` on the decode paths; succeeds exactly on raw codes 0
(Bid) and 1 (Ask). -/
def Side.tryFromU32 (n : Nat) : Option Side :=
  if n = 0 then some .Bid else if n = 1 then some .Ask else none

/-- Modelled from the spec: `OrderType::try_from_primitive` after the
`u32 → u8` `try_into`; succeeds exactly on raw codes 0, 1, 2. -/
def OrderType.tryFromU32 (n : Nat) : Option OrderType :=
  if n = 0 then some .Limit
  else if n = 1 then some .ImmediateOrCancel
  else if n = 2 then some .PostOnly
  else none

/-- Embeds `SelfTradeBehavior::try_from_primitive` after the `u32 → u8`
`try_into`; succeeds exactly on raw codes 0, 1, 2 (`instruction.rs`). -/
def SelfTradeBehavior.tryFromU32 (n : Nat) : Option SelfTradeBehavior :=
  if n = 0 then some .DecrementTake
  else if n = 1 then some .CancelProvide
  else if n = 2 then some .AbortTransaction
  else none

structure InitializeMarketInstruction where
  coin_lot_size : Nat
  pc_lot_size : Nat
  fee_rate_bps : Nat
  vault_signer_nonce : Nat
  pc_dust_threshold : Nat
deriving DecidableEq

structure SendTakeInstruction where
  side : Side
  limit_price : Nat
  max_coin_qty : Nat
  max_native_pc_qty_including_fees : Nat
  min_coin_qty : Nat
  min_native_pc_qty : Nat
  limit : Nat
deriving DecidableEq

structure NewOrderInstructionV3 where
  side : Side
  limit_price : Nat
  max_coin_qty : Nat
  max_native_pc_qty_including_fees : Nat
  self_trade_behavior : SelfTradeBehavior
  order_type : OrderType
  client_order_id : Nat
  limit : Nat
  max_ts : Int
deriving DecidableEq

structure NewOrderInstructionV2 where
  side : Side
  limit_price : Nat
  max_qty : Nat
  order_type : OrderType
  client_id : Nat
  self_trade_behavior : SelfTradeBehavior
deriving DecidableEq

structure NewOrderInstructionV1 where
  side : Side
  limit_price : Nat
  max_qty : Nat
  order_type : OrderType
  client_id : Nat
deriving DecidableEq

/-- Embeds `NewOrderInstructionV1::add_self_trade_behavior`. -/
def NewOrderInstructionV1.add_self_trade_behavior
    (v1 : NewOrderInstructionV1) (stb : SelfTradeBehavior) :
    NewOrderInstructionV2 :=
  { side := v1.side
    limit_price := v1.limit_price
    max_qty := v1.max_qty
    order_type := v1.order_type
    client_id := v1.client_id
    self_trade_behavior := stb }

structure CancelOrderInstructionV2 where
  side : Side
  order_id : Nat
deriving DecidableEq

structure CancelOrderInstruction where
  side : Side
  order_id : Nat
  /-- Field `owner: [u64; 4]` (unused), obtained by `bytemuck::cast` of 32
  little-endian bytes. -/
  owner : List Nat
  owner_slot : Nat
deriving DecidableEq

/-- Embeds `SendTakeInstruction::unpack` on a 46-byte payload:
`array_refs![data, 4, 8, 8, 8, 8, 8, 2]`. -/
def SendTakeInstruction.unpack (data : List Nat) :
    Option SendTakeInstruction := do
  let side_arr := data.take 4
  let r1 := data.drop 4
  let price_arr := r1.take 8
  let r2 := r1.drop 8
  let max_coin_qty_arr := r2.take 8
  let r3 := r2.drop 8
  let max_native_pc_qty_arr := r3.take 8
  let r4 := r3.drop 8
  let min_coin_qty_arr := r4.take 8
  let r5 := r4.drop 8
  let min_native_pc_qty_arr := r5.take 8
  let r6 := r5.drop 8
  let limit_arr := r6.take 2
  let side ← Side.tryFromU32 (leNat side_arr)
  let limit_price ← nonZeroU64 (leNat price_arr)
  let max_coin_qty ← nonZeroU64 (leNat max_coin_qty_arr)
  let max_native_pc_qty_including_fees ←
    nonZeroU64 (leNat max_native_pc_qty_arr)
  let min_coin_qty := leNat min_coin_qty_arr
  let min_native_pc_qty := leNat min_native_pc_qty_arr
  let limit := leNat limit_arr
  pure { side, limit_price, max_coin_qty,
         max_native_pc_qty_including_fees, min_coin_qty,
         min_native_pc_qty, limit }

/-- Embeds `NewOrderInstructionV3::unpack` on a 54-byte payload:
`array_refs![data, 4, 8, 8, 8, 4, 4, 8, 2, 8]`. -/
def NewOrderInstructionV3.unpack (data : List Nat) :
    Option NewOrderInstructionV3 := do
  let side_arr := data.take 4
  let r1 := data.drop 4
  let price_arr := r1.take 8
  let r2 := r1.drop 8
  let max_coin_qty_arr := r2.take 8
  let r3 := r2.drop 8
  let max_native_pc_qty_arr := r3.take 8
  let r4 := r3.drop 8
  let self_trade_behavior_arr := r4.take 4
  let r5 := r4.drop 4
  let otype_arr := r5.take 4
  let r6 := r5.drop 4
  let client_order_id_bytes := r6.take 8
  let r7 := r6.drop 8
  let limit_arr := r7.take 2
  let r8 := r7.drop 2
  let max_ts_arr := r8.take 8
  let side ← Side.tryFromU32 (leNat side_arr)
  let limit_price ← nonZeroU64 (leNat price_arr)
  let max_coin_qty ← nonZeroU64 (leNat max_coin_qty_arr)
  let max_native_pc_qty_including_fees ←
    nonZeroU64 (leNat max_native_pc_qty_arr)
  let self_trade_behavior ←
    SelfTradeBehavior.tryFromU32 (leNat self_trade_behavior_arr)
  let order_type ← OrderType.tryFromU32 (leNat otype_arr)
  let client_order_id := leNat client_order_id_bytes
  let limit := leNat limit_arr
  let max_ts := i64FromLE max_ts_arr
  pure { side, limit_price, max_coin_qty,
         max_native_pc_qty_including_fees, self_trade_behavior,
         order_type, client_order_id, limit, max_ts }

/-- Embeds `NewOrderInstructionV1::unpack` on a 32-byte payload:
`array_refs![data, 4, 8, 8, 4, 8]`, with inline `match` decoding of
`Side` and `OrderType` exactly as in the source. -/
def NewOrderInstructionV1.unpack (data : List Nat) :
    Option NewOrderInstructionV1 := do
  let side_arr := data.take 4
  let r1 := data.drop 4
  let price_arr := r1.take 8
  let r2 := r1.drop 8
  let max_qty_arr := r2.take 8
  let r3 := r2.drop 8
  let otype_arr := r3.take 4
  let r4 := r3.drop 4
  let client_id_bytes := r4.take 8
  let client_id := leNat client_id_bytes
  let side ← match leNat side_arr with
    | 0 => some Side.Bid
    | 1 => some Side.Ask
    | _ => none
  let limit_price ← nonZeroU64 (leNat price_arr)
  let max_qty ← nonZeroU64 (leNat max_qty_arr)
  let order_type ← match leNat otype_arr with
    | 0 => some OrderType.Limit
    | 1 => some OrderType.ImmediateOrCancel
    | 2 => some OrderType.PostOnly
    | _ => none
  pure { side, limit_price, max_qty, order_type, client_id }

/-- Embeds `CancelOrderInstructionV2::unpack` on a 20-byte payload:
`array_refs![data, 4, 16]`. -/
def CancelOrderInstructionV2.unpack (data : List Nat) :
    Option CancelOrderInstructionV2 := do
  let side_arr := data.take 4
  let oid_arr := (data.drop 4).take 16
  let side ← Side.tryFromU32 (leNat side_arr)
  let order_id := leNat oid_arr
  pure { side, order_id }

/-- The `MarketInstruction` command set, variants in source (= bincode
variant index = wire discriminant) order. -/
inductive MarketInstruction
  | InitializeMarket (i : InitializeMarketInstruction)
  | NewOrder (o : NewOrderInstructionV1)
  | MatchOrders (limit : Nat)
  | ConsumeEvents (limit : Nat)
  | CancelOrder (c : CancelOrderInstruction)
  | SettleFunds
  | CancelOrderByClientId (client_id : Nat)
  | DisableMarket
  | SweepFees
  | NewOrderV2 (o : NewOrderInstructionV2)
  | NewOrderV3 (o : NewOrderInstructionV3)
  | CancelOrderV2 (c : CancelOrderInstructionV2)
  | CancelOrderByClientIdV2 (client_id : Nat)
  | SendTake (s : SendTakeInstruction)
  | CloseOpenOrders
  | InitOpenOrders
  | Prune (limit : Nat)
  | ConsumeEventsPermissioned (limit : Nat)
  | CancelOrdersByClientIds (ids : List Nat)
  | ReplaceOrderByClientId (o : NewOrderInstructionV3)
  | ReplaceOrdersByClientIds (orders : List NewOrderInstructionV3)
deriving DecidableEq

/-- A slice access that panics (`Except.error`) when out of bounds:
models `array_ref![data, off, len]` and `data[off..off+len]` followed
by `try_into().unwrap()`. -/
def arrayRef (data : List Nat) (off len : Nat) :
    Except Unit (List Nat) :=
  if off + len ≤ data.length then .ok ((data.drop off).take len)
  else .error ()

/-- Discriminant-0 payload (34 bytes): `InitializeMarketInstruction`,
`array_refs![data_array, 8, 8, 2, 8, 8]`. -/
def initializeMarketBody (data_array : List Nat) :
    Option MarketInstruction :=
  let f0 := data_array.take 8
  let r1 := data_array.drop 8
  let f1 := r1.take 8
  let r2 := r1.drop 8
  let f2 := r2.take 2
  let r3 := r2.drop 2
  let f3 := r3.take 8
  let r4 := r3.drop 8
  let f4 := r4.take 8
  some (.InitializeMarket
    { coin_lot_size := leNat f0
      pc_lot_size := leNat f1
      fee_rate_bps := leNat f2
      vault_signer_nonce := leNat f3
      pc_dust_threshold := leNat f4 })

/-- Discriminant-4 payload (53 bytes): `CancelOrderInstruction`,
`array_refs![data_array, 4, 16, 32, 1]`; the 32 owner bytes are
`bytemuck::cast` to `[u64; 4]` (little-endian 8-byte words). -/
def cancelOrderBody (data_array : List Nat) :
    Option MarketInstruction := do
  let f0 := data_array.take 4
  let r1 := data_array.drop 4
  let f1 := r1.take 16
  let r2 := r1.drop 16
  let f2 := r2.take 32
  let r3 := r2.drop 32
  let f3 := r3.take 1
  let side ← match leNat f0 with
    | 0 => some Side.Bid
    | 1 => some Side.Ask
    | _ => none
  let order_id := leNat f1
  let owner := (chunksExact 8 f2).map leNat
  let owner_slot := leNat f3
  pure (.CancelOrder { side, order_id, owner, owner_slot })

/-- Discriminant-18 payload: `data.chunks_exact(8)` zipped into 8
`u64` slots initialized to 0. -/
def cancelOrdersByClientIdsBody (data : List Nat) : MarketInstruction :=
  let chunks := chunksExact 8 data
  .CancelOrdersByClientIds
    ((chunks.take 8).map leNat ++ List.replicate (8 - chunks.length) 0)

/-- The `match (discrim, data.len())` dispatch of
`MarketInstruction::unpack`, one guard per source arm, in source
order; `Except.error` marks a slice access that would panic. -/
def dispatch (discrim : Nat) (data : List Nat) :
    Except Unit (Option MarketInstruction) :=
  if discrim = 0 ∧ data.length = 34 then
          (arrayRef data 0 34).map initializeMarketBody
        else if discrim = 1 ∧ data.length = 32 then
          (arrayRef data 0 32).map fun d =>
            (NewOrderInstructionV1.unpack d).map .NewOrder
        else if discrim = 2 ∧ data.length = 2 then
          (arrayRef data 0 2).map fun d => some (.MatchOrders (leNat d))
        else if discrim = 3 ∧ data.length = 2 then
          (arrayRef data 0 2).map fun d => some (.ConsumeEvents (leNat d))
        else if discrim = 4 ∧ data.length = 53 then
          (arrayRef data 0 53).map cancelOrderBody
        else if discrim = 5 ∧ data.length = 0 then
          .ok (some .SettleFunds)
        else if discrim = 6 ∧ data.length = 8 then
          (arrayRef data 0 8).map fun d =>
            some (.CancelOrderByClientId (leNat d))
        else if discrim = 7 ∧ data.length = 0 then
          .ok (some .DisableMarket)
        else if discrim = 8 ∧ data.length = 0 then
          .ok (some .SweepFees)
        else if discrim = 9 ∧ data.length = 36 then
          (arrayRef data 0 36).map fun d => do
            let v1_instr ← NewOrderInstructionV1.unpack (d.take 32)
            let self_trade_behavior ←
              SelfTradeBehavior.tryFromU32 (leNat ((d.drop 32).take 4))
            pure (.NewOrderV2
              (v1_instr.add_self_trade_behavior self_trade_behavior))
        else if discrim = 10 ∧ (data.length = 46 ∨ data.length = 54) then
          -- `match len { 46 => Some([data, &i64::MAX.to_le_bytes()].concat()),
          --              54 => Some(data.to_vec()), _ => None }?`, inlined:
          -- each reachable length proceeds with its extended data, the
          -- (dead) default arm propagates `None`.
          if data.length = 46 then
            (arrayRef (data ++ natToLE 8 (2 ^ 63 - 1)) 0 54).map fun d =>
              (NewOrderInstructionV3.unpack d).map .NewOrderV3
          else if data.length = 54 then
            (arrayRef data 0 54).map fun d =>
              (NewOrderInstructionV3.unpack d).map .NewOrderV3
          else .ok none
        else if discrim = 11 ∧ data.length = 20 then
          (arrayRef data 0 20).map fun d =>
            (CancelOrderInstructionV2.unpack d).map .CancelOrderV2
        else if discrim = 12 ∧ data.length = 8 then
          (arrayRef data 0 8).map fun d =>
            some (.CancelOrderByClientIdV2 (leNat d))
        else if discrim = 13 ∧ data.length = 46 then
          (arrayRef data 0 46).map fun d =>
            (SendTakeInstruction.unpack d).map .SendTake
        else if discrim = 14 ∧ data.length = 0 then
          .ok (some .CloseOpenOrders)
        else if discrim = 15 ∧ data.length = 0 then
          .ok (some .InitOpenOrders)
        else if discrim = 16 ∧ data.length = 2 then
          (arrayRef data 0 2).map fun d => some (.Prune (leNat d))
        else if discrim = 17 ∧ data.length = 2 then
          (arrayRef data 0 2).map fun d =>
            some (.ConsumeEventsPermissioned (leNat d))
        else if discrim = 18 ∧ data.length % 8 = 0 ∧
            data.length ≤ 8 * 8 then
          .ok (some (cancelOrdersByClientIdsBody data))
        else if discrim = 19 ∧ data.length = 54 then
          (arrayRef data 0 54).map fun d =>
            (NewOrderInstructionV3.unpack d).map .ReplaceOrderByClientId
        else if discrim = 20 ∧ data.length % 54 = 8 ∧
            data.length ≤ 8 + 8 * 54 then
          (arrayRef data 0 8).map fun count_arr =>
            if leNat count_arr ≠ (data.length - 8) / 54 then none
            else
              (collectOption NewOrderInstructionV3.unpack
                (chunksExact 54 (data.drop 8))).map .ReplaceOrdersByClientIds
        else
          .ok none

/-- Embeds `MarketInstruction::unpack`, with panics made explicit: `Except.ok`
is the source's normal `Option` result, `Except.error` marks a slice
access that would panic.  Follows the source line by line: length
envelope, `array_refs![versioned_bytes, 1, 4; ..;]`, version check,
then the `match (discrim, data.len())` dispatch. -/
def MarketInstruction.unpackE (versioned_bytes : List Nat) :
    Except Unit (Option MarketInstruction) :=
  if versioned_bytes.length < 5 ∨
      5 + 8 + 54 * 8 < versioned_bytes.length then
    .ok none
  else if 5 ≤ versioned_bytes.length then
    -- `let (&[version], &discrim, data) =
    --    array_refs![versioned_bytes, 1, 4; ..;];`
    let version := leNat (versioned_bytes.take 1)
    let discrim_arr := (versioned_bytes.drop 1).take 4
    if version ≠ 0 then .ok none
    else dispatch (leNat discrim_arr) (versioned_bytes.drop 5)
  else
    -- the `array_refs!` header split would panic on fewer than 5 bytes
    .error ()

/-- Embeds `MarketInstruction::unpack` as the source's `Option`-valued
function (the panic case, proved unreachable below, maps to `none`). -/
def MarketInstruction.unpack (versioned_bytes : List Nat) :
    Option MarketInstruction :=
  match MarketInstruction.unpackE versioned_bytes with
  | .ok r => r
  | .error _ => none

/-- Bincode variant index of `Side` (serde enum, u32 little-endian). -/
def sideU32 : Side → Nat
  | .Bid => 0
  | .Ask => 1

/-- Bincode variant index of `OrderType`. -/
def orderTypeU32 : OrderType → Nat
  | .Limit => 0
  | .ImmediateOrCancel => 1
  | .PostOnly => 2

/-- Bincode variant index of `SelfTradeBehavior`. -/
def stbU32 : SelfTradeBehavior → Nat
  | .DecrementTake => 0
  | .CancelProvide => 1
  | .AbortTransaction => 2

/-- Bincode body of `NewOrderInstructionV1` (serde field order). -/
def v1Bytes (o : NewOrderInstructionV1) : List Nat :=
  natToLE 4 (sideU32 o.side) ++ natToLE 8 o.limit_price ++
    natToLE 8 o.max_qty ++ natToLE 4 (orderTypeU32 o.order_type) ++
    natToLE 8 o.client_id

/-- Bincode body of `NewOrderInstructionV2` (serde field order): the
first five fields coincide, in order, with the `NewOrderInstructionV1`
body, followed by the 4-byte self-trade-behavior code. -/
def v2Bytes (o : NewOrderInstructionV2) : List Nat :=
  v1Bytes { side := o.side, limit_price := o.limit_price,
            max_qty := o.max_qty, order_type := o.order_type,
            client_id := o.client_id } ++
    natToLE 4 (stbU32 o.self_trade_behavior)

/-- Bincode body of `NewOrderInstructionV3` (serde field order). -/
def v3Bytes (o : NewOrderInstructionV3) : List Nat :=
  natToLE 4 (sideU32 o.side) ++ natToLE 8 o.limit_price ++
    natToLE 8 o.max_coin_qty ++
    natToLE 8 o.max_native_pc_qty_including_fees ++
    natToLE 4 (stbU32 o.self_trade_behavior) ++
    natToLE 4 (orderTypeU32 o.order_type) ++
    natToLE 8 o.client_order_id ++ natToLE 2 o.limit ++
    natToLE 8 (i64ToNat o.max_ts)

/-- Bincode body of `SendTakeInstruction` (serde field order). -/
def sendTakeBytes (s : SendTakeInstruction) : List Nat :=
  natToLE 4 (sideU32 s.side) ++ natToLE 8 s.limit_price ++
    natToLE 8 s.max_coin_qty ++
    natToLE 8 s.max_native_pc_qty_including_fees ++
    natToLE 8 s.min_coin_qty ++ natToLE 8 s.min_native_pc_qty ++
    natToLE 2 s.limit

/-- Embeds `MarketInstruction::pack`, i.e. `bincode::serialize(&(0u8, self))`
with bincode's default fixed-int little-endian format: one `0` version
byte, the `u32` variant index, then the fields in declaration order
(`Vec` gets a `u64` length prefix, fixed arrays do not). -/
def MarketInstruction.pack : MarketInstruction → List Nat
  | .InitializeMarket i =>
    0 :: natToLE 4 0 ++ natToLE 8 i.coin_lot_size ++
      natToLE 8 i.pc_lot_size ++ natToLE 2 i.fee_rate_bps ++
      natToLE 8 i.vault_signer_nonce ++ natToLE 8 i.pc_dust_threshold
  | .NewOrder o => 0 :: natToLE 4 1 ++ v1Bytes o
  | .MatchOrders limit => 0 :: natToLE 4 2 ++ natToLE 2 limit
  | .ConsumeEvents limit => 0 :: natToLE 4 3 ++ natToLE 2 limit
  | .CancelOrder c =>
    0 :: natToLE 4 4 ++ natToLE 4 (sideU32 c.side) ++
      natToLE 16 c.order_id ++ (c.owner.map (natToLE 8)).flatten ++
      natToLE 1 c.owner_slot
  | .SettleFunds => 0 :: natToLE 4 5
  | .CancelOrderByClientId client_id =>
    0 :: natToLE 4 6 ++ natToLE 8 client_id
  | .DisableMarket => 0 :: natToLE 4 7
  | .SweepFees => 0 :: natToLE 4 8
  | .NewOrderV2 o => 0 :: natToLE 4 9 ++ v2Bytes o
  | .NewOrderV3 o => 0 :: natToLE 4 10 ++ v3Bytes o
  | .CancelOrderV2 c =>
    0 :: natToLE 4 11 ++ natToLE 4 (sideU32 c.side) ++
      natToLE 16 c.order_id
  | .CancelOrderByClientIdV2 client_id =>
    0 :: natToLE 4 12 ++ natToLE 8 client_id
  | .SendTake s => 0 :: natToLE 4 13 ++ sendTakeBytes s
  | .CloseOpenOrders => 0 :: natToLE 4 14
  | .InitOpenOrders => 0 :: natToLE 4 15
  | .Prune limit => 0 :: natToLE 4 16 ++ natToLE 2 limit
  | .ConsumeEventsPermissioned limit =>
    0 :: natToLE 4 17 ++ natToLE 2 limit
  | .CancelOrdersByClientIds ids =>
    0 :: natToLE 4 18 ++ (ids.map (natToLE 8)).flatten
  | .ReplaceOrderByClientId o => 0 :: natToLE 4 19 ++ v3Bytes o
  | .ReplaceOrdersByClientIds orders =>
    0 :: natToLE 4 20 ++ natToLE 8 orders.length ++
      (orders.map v3Bytes).flatten

/-- A version-0 wire buffer: version byte `0`, 4-byte little-endian
discriminant, then the payload. -/
def envelope (discrim : Nat) (payload : List Nat) : List Nat :=
  0 :: natToLE 4 discrim ++ payload

/-- Exact payload length required by each fixed-size discriminant
(the dispatch table rows other than 10, 18 and 20). -/
def fixedLen : Nat → Option Nat
  | 0 => some 34
  | 1 => some 32
  | 2 => some 2
  | 3 => some 2
  | 4 => some 53
  | 5 => some 0
  | 6 => some 8
  | 7 => some 0
  | 8 => some 0
  | 9 => some 36
  | 11 => some 20
  | 12 => some 8
  | 13 => some 46
  | 14 => some 0
  | 15 => some 0
  | 16 => some 2
  | 17 => some 2
  | 19 => some 54
  | _ => none

/-- Rust-type-validity of a `NewOrderInstructionV1` value: `NonZeroU64`
fields are nonzero, every unsigned field fits its machine width. -/
@[reducible] def NewOrderInstructionV1.valid
    (o : NewOrderInstructionV1) : Prop :=
  0 < o.limit_price ∧ o.limit_price < 2 ^ 64 ∧
    0 < o.max_qty ∧ o.max_qty < 2 ^ 64 ∧ o.client_id < 2 ^ 64

/-- Rust-type-validity of a `NewOrderInstructionV2` value. -/
@[reducible] def NewOrderInstructionV2.valid
    (o : NewOrderInstructionV2) : Prop :=
  0 < o.limit_price ∧ o.limit_price < 2 ^ 64 ∧
    0 < o.max_qty ∧ o.max_qty < 2 ^ 64 ∧ o.client_id < 2 ^ 64

/-- Rust-type-validity of a `NewOrderInstructionV3` value. -/
@[reducible] def NewOrderInstructionV3.valid
    (o : NewOrderInstructionV3) : Prop :=
  0 < o.limit_price ∧ o.limit_price < 2 ^ 64 ∧
    0 < o.max_coin_qty ∧ o.max_coin_qty < 2 ^ 64 ∧
    0 < o.max_native_pc_qty_including_fees ∧
    o.max_native_pc_qty_including_fees < 2 ^ 64 ∧
    o.client_order_id < 2 ^ 64 ∧ o.limit < 2 ^ 16 ∧
    -2 ^ 63 ≤ o.max_ts ∧ o.max_ts < 2 ^ 63

/-- Rust-type-validity of a `SendTakeInstruction` value. -/
@[reducible] def SendTakeInstruction.valid
    (t : SendTakeInstruction) : Prop :=
  0 < t.limit_price ∧ t.limit_price < 2 ^ 64 ∧
    0 < t.max_coin_qty ∧ t.max_coin_qty < 2 ^ 64 ∧
    0 < t.max_native_pc_qty_including_fees ∧
    t.max_native_pc_qty_including_fees < 2 ^ 64 ∧
    t.min_coin_qty < 2 ^ 64 ∧ t.min_native_pc_qty < 2 ^ 64 ∧
    t.limit < 2 ^ 16

/-- Rust-type-validity of a `MarketInstruction` value: each field fits
its declared machine type (`NonZeroU64` fields are nonzero, fixed
arrays have their declared arity).  This is exactly what the Rust type
system guarantees for any constructible value. -/
@[reducible] def MarketInstruction.valid : MarketInstruction → Prop
  | .InitializeMarket i =>
    i.coin_lot_size < 2 ^ 64 ∧ i.pc_lot_size < 2 ^ 64 ∧
      i.fee_rate_bps < 2 ^ 16 ∧ i.vault_signer_nonce < 2 ^ 64 ∧
      i.pc_dust_threshold < 2 ^ 64
  | .NewOrder o => o.valid
  | .MatchOrders limit => limit < 2 ^ 16
  | .ConsumeEvents limit => limit < 2 ^ 16
  | .CancelOrder c =>
    c.order_id < 2 ^ 128 ∧ c.owner.length = 4 ∧
      (∀ x ∈ c.owner, x < 2 ^ 64) ∧ c.owner_slot < 2 ^ 8
  | .SettleFunds => True
  | .CancelOrderByClientId client_id => client_id < 2 ^ 64
  | .DisableMarket => True
  | .SweepFees => True
  | .NewOrderV2 o => o.valid
  | .NewOrderV3 o => o.valid
  | .CancelOrderV2 c => c.order_id < 2 ^ 128
  | .CancelOrderByClientIdV2 client_id => client_id < 2 ^ 64
  | .SendTake t => t.valid
  | .CloseOpenOrders => True
  | .InitOpenOrders => True
  | .Prune limit => limit < 2 ^ 16
  | .ConsumeEventsPermissioned limit => limit < 2 ^ 16
  | .CancelOrdersByClientIds ids =>
    ids.length = 8 ∧ ∀ x ∈ ids, x < 2 ^ 64
  | .ReplaceOrderByClientId o => o.valid
  | .ReplaceOrdersByClientIds orders => ∀ o ∈ orders, o.valid

/-- Extra bound under which the batch variant round-trips: a
`ReplaceOrdersByClientIds` batch has at most 8 orders (larger batches
encode beyond the decoder's envelope bound and are rejected). -/
@[reducible] def MarketInstruction.batchBound : MarketInstruction → Prop
  | .ReplaceOrdersByClientIds orders => orders.length ≤ 8
  | _ => True

/-- Concrete well-formed `NewOrderInstructionV3` used as a test vector
by the concrete theorems below. -/
@[reducible] def sampleOrder : NewOrderInstructionV3 :=
  { side := .Ask, limit_price := 5, max_coin_qty := 7,
    max_native_pc_qty_including_fees := 11,
    self_trade_behavior := .CancelProvide, order_type := .PostOnly,
    client_order_id := 300, limit := 2, max_ts := -17 }

/-- Concrete constructible command whose batch exceeds 8 orders: its
encoding is longer than the decoder's envelope bound. -/
@[reducible] def oversizedBatch : MarketInstruction :=
  .ReplaceOrdersByClientIds (List.replicate 9 sampleOrder)

/-! ### Basic lemmas about the byte-level helpers -/

@[simp] theorem natToLE_length (w n : Nat) : (natToLE w n).length = w := by
  induction w generalizing n with
  | zero => rfl
  | succ k ih => simp [natToLE, ih]

theorem leNat_natToLE {w n : Nat} (h : n < 256 ^ w) :
    leNat (natToLE w n) = n := by
  induction w generalizing n with
  | zero =>
    have hn : n < 1 := by simpa using h
    simp [natToLE, leNat]
    omega
  | succ k ih =>
    have hdiv : n / 256 < 256 ^ k := by
      rw [Nat.div_lt_iff_lt_mul (by norm_num)]
      calc n < 256 ^ (k + 1) := h
        _ = 256 ^ k * 256 := by ring
    simp [natToLE, leNat, ih hdiv]
    omega

theorem take_append_exact {α : Type} {a : List α} (b : List α) {n : Nat}
    (h : a.length = n) : (a ++ b).take n = a := by
  subst h
  exact List.take_left a b

theorem drop_append_exact {α : Type} {a : List α} (b : List α) {n : Nat}
    (h : a.length = n) : (a ++ b).drop n = b := by
  subst h
  exact List.drop_left a b

theorem take_exact {α : Type} {a : List α} {n : Nat} (h : a.length = n) :
    a.take n = a :=
  List.take_of_length_le h.le

theorem sideU32_lt (s : Side) : sideU32 s < 2 ^ 32 := by
  cases s <;> simp [sideU32]

@[simp] theorem side_code_roundtrip (s : Side) :
    Side.tryFromU32 (sideU32 s) = some s := by
  cases s <;> rfl

@[simp] theorem orderType_code_roundtrip (t : OrderType) :
    OrderType.tryFromU32 (orderTypeU32 t) = some t := by
  cases t <;> rfl

@[simp] theorem stb_code_roundtrip (b : SelfTradeBehavior) :
    SelfTradeBehavior.tryFromU32 (stbU32 b) = some b := by
  cases b <;> rfl

theorem nonZeroU64_pos {n : Nat} (h : 0 < n) : nonZeroU64 n = some n := by
  unfold nonZeroU64
  rw [if_neg (by omega)]

theorem i64_code_roundtrip {x : Int} (h1 : -2 ^ 63 ≤ x)
    (h2 : x < 2 ^ 63) : i64FromLE (natToLE 8 (i64ToNat x)) = x := by
  unfold i64FromLE i64ToNat
  by_cases hx : x < 0
  · rw [if_pos hx, leNat_natToLE (by omega), if_neg (by omega)]
    omega
  · rw [if_neg hx, leNat_natToLE (by omega), if_pos (by omega)]
    omega

theorem chunksExact_length (n : Nat) (l : List Nat) :
    (chunksExact n l).length = l.length / n := by
  simp [chunksExact]

theorem chunksExact_nil (n : Nat) : chunksExact n [] = [] := by
  simp [chunksExact]

theorem chunksExact_cons {n : Nat} (hn : 0 < n) {a : List Nat}
    (rest : List Nat) (h : a.length = n) :
    chunksExact n (a ++ rest) = a :: chunksExact n rest := by
  unfold chunksExact
  rw [List.length_append, h, Nat.add_div_left _ hn,
    List.range_succ_eq_map]
  simp only [List.map_cons, List.map_map]
  congr 1
  · rw [Nat.mul_zero, List.drop_zero]
    exact take_append_exact rest h
  · apply List.map_congr_left
    intro i _
    simp only [Function.comp_apply]
    have hsh : n * Nat.succ i = a.length + n * i := by
      rw [h, Nat.mul_succ]
      omega
    rw [hsh, List.drop_append]

theorem chunksExact_flatten_map {n : Nat} (hn : 0 < n)
    {α : Type} (f : α → List Nat) (l : List α)
    (hf : ∀ x ∈ l, (f x).length = n) :
    chunksExact n (l.map f).flatten = l.map f := by
  induction l with
  | nil => simpa using chunksExact_nil n
  | cons x xs ih =>
    simp only [List.map_cons, List.flatten_cons]
    rw [chunksExact_cons hn _ (hf x (by simp)),
      ih (fun y hy => hf y (by simp [hy]))]

theorem flatten_map_const_length {n : Nat} {α : Type} (f : α → List Nat)
    (l : List α) (hf : ∀ x ∈ l, (f x).length = n) :
    (l.map f).flatten.length = n * l.length := by
  induction l with
  | nil => simp
  | cons x xs ih =>
    simp only [List.map_cons, List.flatten_cons, List.length_append,
      List.length_cons, hf x (by simp),
      ih (fun y hy => hf y (by simp [hy]))]
    ring

theorem collectOption_map_roundtrip {α : Type} (g : α → List Nat)
    (u : List Nat → Option α) (l : List α)
    (h : ∀ x ∈ l, u (g x) = some x) :
    collectOption u (l.map g) = some l := by
  induction l with
  | nil => rfl
  | cons x xs ih =>
    simp only [List.map_cons, collectOption, h x (by simp),
      ih (fun y hy => h y (by simp [hy])), Option.bind_eq_bind,
      Option.some_bind]
    rfl

theorem collectOption_length {α β : Type} {f : α → Option β}
    {l : List α} {l2 : List β} (h : collectOption f l = some l2) :
    l2.length = l.length := by
  induction l generalizing l2 with
  | nil =>
    simp only [collectOption] at h
    cases h
    rfl
  | cons x xs ih =>
    simp only [collectOption, Option.bind_eq_bind, bind,
      Option.bind_eq_some] at h
    obtain ⟨y, hy, ys, hys, hcons⟩ := h
    cases hcons
    simp [ih hys]

/-! ### Envelope-level lemmas -/

theorem arrayRef_ok {data : List Nat} {off len : Nat}
    (h : off + len ≤ data.length) :
    arrayRef data off len = .ok ((data.drop off).take len) := by
  unfold arrayRef
  rw [if_pos h]

theorem envelope_length (d : Nat) (p : List Nat) :
    (envelope d p).length = 5 + p.length := by
  simp [envelope]
  omega

theorem unpackE_envelope {d : Nat} (hd : d < 2 ^ 32) {p : List Nat}
    (hp : p.length ≤ 440) :
    MarketInstruction.unpackE (envelope d p) = dispatch d p := by
  have hlen := envelope_length d p
  unfold MarketInstruction.unpackE
  rw [if_neg (by omega), if_pos (by omega)]
  have hv : (envelope d p).take 1 = [0] := by
    simp [envelope]
  have hdisc : ((envelope d p).drop 1).take 4 = natToLE 4 d := by
    simp only [envelope, List.drop_succ_cons, List.drop_zero]
    exact take_append_exact p (natToLE_length 4 d)
  have hdata : (envelope d p).drop 5 = p := by
    rw [show envelope d p = (0 :: natToLE 4 d) ++ p from by
      simp [envelope]]
    exact drop_append_exact p (by simp)
  rw [hv, hdisc, hdata]
  show (if leNat [0] ≠ 0 then Except.ok none
        else dispatch (leNat (natToLE 4 d)) p) = dispatch d p
  rw [show leNat [0] = 0 from rfl, if_neg (by simp),
    leNat_natToLE (show d < 256 ^ 4 by omega)]

theorem unpack_dispatch {d : Nat} (hd : d < 2 ^ 32) {p : List Nat}
    (hp : p.length ≤ 440) {r : Option MarketInstruction}
    (h : dispatch d p = .ok r) :
    MarketInstruction.unpack (envelope d p) = r := by
  unfold MarketInstruction.unpack
  rw [unpackE_envelope hd hp, h]

theorem unpack_out_of_bounds {bs : List Nat}
    (h : bs.length < 5 ∨ 5 + 8 + 54 * 8 < bs.length) :
    MarketInstruction.unpack bs = none := by
  unfold MarketInstruction.unpack MarketInstruction.unpackE
  rw [if_pos h]

theorem unpack_bad_version {v : Nat} (hv : v ≠ 0) (rest : List Nat) :
    MarketInstruction.unpack (v :: rest) = none := by
  unfold MarketInstruction.unpack MarketInstruction.unpackE
  by_cases hlen : (v :: rest).length < 5 ∨
      5 + 8 + 54 * 8 < (v :: rest).length
  · rw [if_pos hlen]
  · rw [if_neg hlen, if_pos (by omega)]
    have hv1 : (v :: rest).take 1 = [v] := by simp
    rw [hv1]
    simp only [leNat, Nat.mul_zero, Nat.add_zero]
    rw [if_pos (by omega)]

/-! ### Panic-freedom of the dispatcher -/

theorem arrayRef_map_ok {data : List Nat} {off len : Nat}
    (f : List Nat → Option MarketInstruction)
    (h : off + len ≤ data.length) :
    ∃ r, (arrayRef data off len).map f = .ok r :=
  ⟨f ((data.drop off).take len), by rw [arrayRef_ok h]; rfl⟩

set_option maxHeartbeats 1000000 in
theorem exists_ok_of_isOk {α : Type} {e : Except Unit α}
    (h : e.isOk = true) : ∃ r, e = .ok r := by
  cases e with
  | ok r => exact ⟨r, rfl⟩
  | error u => simp [Except.isOk, Except.toBool] at h

theorem dispatch_no_panic (d : Nat) (data : List Nat) :
    (dispatch d data).isOk = true := by
  unfold dispatch
  by_cases h0 : d = 0 ∧ data.length = 34
  · rw [if_pos h0, @arrayRef_ok data 0 34 (by omega)]; rfl
  rw [if_neg h0]
  by_cases h1 : d = 1 ∧ data.length = 32
  · rw [if_pos h1, @arrayRef_ok data 0 32 (by omega)]; rfl
  rw [if_neg h1]
  by_cases h2 : d = 2 ∧ data.length = 2
  · rw [if_pos h2, @arrayRef_ok data 0 2 (by omega)]; rfl
  rw [if_neg h2]
  by_cases h3 : d = 3 ∧ data.length = 2
  · rw [if_pos h3, @arrayRef_ok data 0 2 (by omega)]; rfl
  rw [if_neg h3]
  by_cases h4 : d = 4 ∧ data.length = 53
  · rw [if_pos h4, @arrayRef_ok data 0 53 (by omega)]; rfl
  rw [if_neg h4]
  by_cases h5 : d = 5 ∧ data.length = 0
  · rw [if_pos h5]; rfl
  rw [if_neg h5]
  by_cases h6 : d = 6 ∧ data.length = 8
  · rw [if_pos h6, @arrayRef_ok data 0 8 (by omega)]; rfl
  rw [if_neg h6]
  by_cases h7 : d = 7 ∧ data.length = 0
  · rw [if_pos h7]; rfl
  rw [if_neg h7]
  by_cases h8 : d = 8 ∧ data.length = 0
  · rw [if_pos h8]; rfl
  rw [if_neg h8]
  by_cases h9 : d = 9 ∧ data.length = 36
  · rw [if_pos h9, @arrayRef_ok data 0 36 (by omega)]; rfl
  rw [if_neg h9]
  by_cases h10 : d = 10 ∧ (data.length = 46 ∨ data.length = 54)
  · rw [if_pos h10]
    by_cases h46 : data.length = 46
    · rw [if_pos h46, @arrayRef_ok (data ++ natToLE 8 (2 ^ 63 - 1)) 0 54
        (by rw [List.length_append, natToLE_length]; omega)]
      rfl
    · rw [if_neg h46, if_pos (show data.length = 54 by omega),
        @arrayRef_ok data 0 54 (by omega)]
      rfl
  rw [if_neg h10]
  by_cases h11 : d = 11 ∧ data.length = 20
  · rw [if_pos h11, @arrayRef_ok data 0 20 (by omega)]; rfl
  rw [if_neg h11]
  by_cases h12 : d = 12 ∧ data.length = 8
  · rw [if_pos h12, @arrayRef_ok data 0 8 (by omega)]; rfl
  rw [if_neg h12]
  by_cases h13 : d = 13 ∧ data.length = 46
  · rw [if_pos h13, @arrayRef_ok data 0 46 (by omega)]; rfl
  rw [if_neg h13]
  by_cases h14 : d = 14 ∧ data.length = 0
  · rw [if_pos h14]; rfl
  rw [if_neg h14]
  by_cases h15 : d = 15 ∧ data.length = 0
  · rw [if_pos h15]; rfl
  rw [if_neg h15]
  by_cases h16 : d = 16 ∧ data.length = 2
  · rw [if_pos h16, @arrayRef_ok data 0 2 (by omega)]; rfl
  rw [if_neg h16]
  by_cases h17 : d = 17 ∧ data.length = 2
  · rw [if_pos h17, @arrayRef_ok data 0 2 (by omega)]; rfl
  rw [if_neg h17]
  by_cases h18 : d = 18 ∧ data.length % 8 = 0 ∧ data.length ≤ 8 * 8
  · rw [if_pos h18]; rfl
  rw [if_neg h18]
  by_cases h19 : d = 19 ∧ data.length = 54
  · rw [if_pos h19, @arrayRef_ok data 0 54 (by omega)]; rfl
  rw [if_neg h19]
  by_cases h20 : d = 20 ∧ data.length % 54 = 8 ∧ data.length ≤ 8 + 8 * 54
  · rw [if_pos h20, @arrayRef_ok data 0 8 (by omega)]; rfl
  rw [if_neg h20]
  rfl

/-! ### Slice arithmetic over encoded fields -/

theorem take_natToLE_append (w n : Nat) (rest : List Nat) :
    ((natToLE w n) ++ rest).take w = natToLE w n :=
  take_append_exact rest (natToLE_length w n)

theorem drop_natToLE_append (w n : Nat) (rest : List Nat) :
    ((natToLE w n) ++ rest).drop w = rest :=
  drop_append_exact rest (natToLE_length w n)

theorem take_natToLE (w n : Nat) : (natToLE w n).take w = natToLE w n :=
  take_exact (natToLE_length w n)

theorem leNat_natToLE_side (s : Side) :
    leNat (natToLE 4 (sideU32 s)) = sideU32 s :=
  leNat_natToLE (by cases s <;> decide)

theorem leNat_natToLE_otype (t : OrderType) :
    leNat (natToLE 4 (orderTypeU32 t)) = orderTypeU32 t :=
  leNat_natToLE (by cases t <;> decide)

theorem leNat_natToLE_stb (b : SelfTradeBehavior) :
    leNat (natToLE 4 (stbU32 b)) = stbU32 b :=
  leNat_natToLE (by cases b <;> decide)

/-! ### Per-arm dispatch equations -/

theorem dispatch0_34 {data : List Nat} (h : data.length = 34) :
    dispatch 0 data = .ok (initializeMarketBody data) := by
  simp [dispatch, arrayRef, h, take_exact h]
  rfl

theorem dispatch1_32 {data : List Nat} (h : data.length = 32) :
    dispatch 1 data =
      .ok ((NewOrderInstructionV1.unpack data).map .NewOrder) := by
  simp [dispatch, arrayRef, h, take_exact h]
  rfl

theorem dispatch2_2 {data : List Nat} (h : data.length = 2) :
    dispatch 2 data = .ok (some (.MatchOrders (leNat data))) := by
  simp [dispatch, arrayRef, h, take_exact h]
  rfl

theorem dispatch3_2 {data : List Nat} (h : data.length = 2) :
    dispatch 3 data = .ok (some (.ConsumeEvents (leNat data))) := by
  simp [dispatch, arrayRef, h, take_exact h]
  rfl

theorem dispatch4_53 {data : List Nat} (h : data.length = 53) :
    dispatch 4 data = .ok (cancelOrderBody data) := by
  simp [dispatch, arrayRef, h, take_exact h]
  rfl

theorem dispatch5_0 {data : List Nat} (h : data.length = 0) :
    dispatch 5 data = .ok (some .SettleFunds) := by
  simp [dispatch, h]

theorem dispatch6_8 {data : List Nat} (h : data.length = 8) :
    dispatch 6 data = .ok (some (.CancelOrderByClientId (leNat data))) := by
  simp [dispatch, arrayRef, h, take_exact h]
  rfl

theorem dispatch7_0 {data : List Nat} (h : data.length = 0) :
    dispatch 7 data = .ok (some .DisableMarket) := by
  simp [dispatch, h]

theorem dispatch8_0 {data : List Nat} (h : data.length = 0) :
    dispatch 8 data = .ok (some .SweepFees) := by
  simp [dispatch, h]

theorem dispatch9_36 {data : List Nat} (h : data.length = 36) :
    dispatch 9 data = .ok (do
      let v1_instr ← NewOrderInstructionV1.unpack (data.take 32)
      let self_trade_behavior ←
        SelfTradeBehavior.tryFromU32 (leNat ((data.drop 32).take 4))
      pure (.NewOrderV2
        (v1_instr.add_self_trade_behavior self_trade_behavior))) := by
  simp [dispatch, arrayRef, h, take_exact h]
  rfl

theorem dispatch10_46 {data : List Nat} (h : data.length = 46) :
    dispatch 10 data =
      .ok ((NewOrderInstructionV3.unpack
        (data ++ natToLE 8 (2 ^ 63 - 1))).map .NewOrderV3) := by
  simp [dispatch, arrayRef, h]
  rw [@take_exact Nat (data ++ natToLE 8 9223372036854775807) 54
    (by simp [h])]
  rfl

theorem dispatch10_54 {data : List Nat} (h : data.length = 54) :
    dispatch 10 data =
      .ok ((NewOrderInstructionV3.unpack data).map .NewOrderV3) := by
  simp [dispatch, arrayRef, h, take_exact h]
  rfl

theorem dispatch11_20 {data : List Nat} (h : data.length = 20) :
    dispatch 11 data =
      .ok ((CancelOrderInstructionV2.unpack data).map .CancelOrderV2) := by
  simp [dispatch, arrayRef, h, take_exact h]
  rfl

theorem dispatch12_8 {data : List Nat} (h : data.length = 8) :
    dispatch 12 data =
      .ok (some (.CancelOrderByClientIdV2 (leNat data))) := by
  simp [dispatch, arrayRef, h, take_exact h]
  rfl

theorem dispatch13_46 {data : List Nat} (h : data.length = 46) :
    dispatch 13 data =
      .ok ((SendTakeInstruction.unpack data).map .SendTake) := by
  simp [dispatch, arrayRef, h, take_exact h]
  rfl

theorem dispatch14_0 {data : List Nat} (h : data.length = 0) :
    dispatch 14 data = .ok (some .CloseOpenOrders) := by
  simp [dispatch, h]

theorem dispatch15_0 {data : List Nat} (h : data.length = 0) :
    dispatch 15 data = .ok (some .InitOpenOrders) := by
  simp [dispatch, h]

theorem dispatch16_2 {data : List Nat} (h : data.length = 2) :
    dispatch 16 data = .ok (some (.Prune (leNat data))) := by
  simp [dispatch, arrayRef, h, take_exact h]
  rfl

theorem dispatch17_2 {data : List Nat} (h : data.length = 2) :
    dispatch 17 data =
      .ok (some (.ConsumeEventsPermissioned (leNat data))) := by
  simp [dispatch, arrayRef, h, take_exact h]
  rfl

theorem dispatch18_ok {data : List Nat} (h8 : data.length % 8 = 0)
    (h64 : data.length ≤ 8 * 8) :
    dispatch 18 data = .ok (some (cancelOrdersByClientIdsBody data)) := by
  simp [dispatch, h8, h64]

theorem dispatch19_54 {data : List Nat} (h : data.length = 54) :
    dispatch 19 data =
      .ok ((NewOrderInstructionV3.unpack data).map
        .ReplaceOrderByClientId) := by
  simp [dispatch, arrayRef, h, take_exact h]
  rfl

theorem dispatch20_ok {data : List Nat} (h54 : data.length % 54 = 8)
    (hle : data.length ≤ 8 + 8 * 54) :
    dispatch 20 data = .ok
      (if leNat (data.take 8) ≠ (data.length - 8) / 54 then none
       else (collectOption NewOrderInstructionV3.unpack
         (chunksExact 54 (data.drop 8))).map .ReplaceOrdersByClientIds) := by
  have hge : 0 + 8 ≤ data.length := by omega
  simp [dispatch, arrayRef, h54, hle, hge]
  rfl

/-! ### Panic-freedom of the full decoder -/

theorem unpackE_no_panic (bs : List Nat) :
    (MarketInstruction.unpackE bs).isOk = true := by
  unfold MarketInstruction.unpackE
  by_cases h1 : bs.length < 5 ∨ 5 + 8 + 54 * 8 < bs.length
  · rw [if_pos h1]; rfl
  · rw [if_neg h1, if_pos (by omega)]
    show (if leNat (bs.take 1) ≠ 0 then Except.ok none
          else dispatch (leNat ((bs.drop 1).take 4)) (bs.drop 5)).isOk =
        true
    by_cases hv : leNat (bs.take 1) ≠ 0
    · rw [if_pos hv]; rfl
    · rw [if_neg hv]
      exact dispatch_no_panic _ _

theorem unpackE_eq_ok (bs : List Nat) :
    MarketInstruction.unpackE bs = .ok (MarketInstruction.unpack bs) := by
  obtain ⟨r, hr⟩ := exists_ok_of_isOk (unpackE_no_panic bs)
  unfold MarketInstruction.unpack
  rw [hr]

/-! ### Payload builders and their lengths -/

theorem v1Bytes_length (o : NewOrderInstructionV1) :
    (v1Bytes o).length = 32 := by
  simp [v1Bytes]

theorem v2Bytes_length (o : NewOrderInstructionV2) :
    (v2Bytes o).length = 36 := by
  simp [v2Bytes, v1Bytes_length]

theorem v3Bytes_length (o : NewOrderInstructionV3) :
    (v3Bytes o).length = 54 := by
  simp [v3Bytes]

theorem sendTakeBytes_length (t : SendTakeInstruction) :
    (sendTakeBytes t).length = 46 := by
  simp [sendTakeBytes]

/-! ### Round trips of the per-variant unpack routines -/

theorem v3_unpack_bytes {o : NewOrderInstructionV3}
    (hv : o.valid) :
    NewOrderInstructionV3.unpack (v3Bytes o) = some o := by
  obtain ⟨h1, h2, h3, h4, h5, h6, h7, h8, h9, h10⟩ := hv
  unfold NewOrderInstructionV3.unpack v3Bytes
  simp only [List.append_assoc, take_natToLE_append, drop_natToLE_append,
    take_natToLE, leNat_natToLE_side, leNat_natToLE_otype,
    leNat_natToLE_stb, side_code_roundtrip, orderType_code_roundtrip,
    stb_code_roundtrip,
    leNat_natToLE (show o.limit_price < 256 ^ 8 by omega),
    leNat_natToLE (show o.max_coin_qty < 256 ^ 8 by omega),
    leNat_natToLE
      (show o.max_native_pc_qty_including_fees < 256 ^ 8 by omega),
    leNat_natToLE (show o.client_order_id < 256 ^ 8 by omega),
    leNat_natToLE (show o.limit < 256 ^ 2 by omega),
    nonZeroU64_pos h1, nonZeroU64_pos h3, nonZeroU64_pos h5,
    i64_code_roundtrip h9 h10, Option.some_bind, Option.pure_def]
  rfl

theorem v1_unpack_bytes {o : NewOrderInstructionV1}
    (hv : o.valid) :
    NewOrderInstructionV1.unpack (v1Bytes o) = some o := by
  obtain ⟨side, lp, mq, ot, cid⟩ := o
  obtain ⟨h1, h2, h3, h4, h5⟩ := hv
  replace h1 : 0 < lp := h1
  replace h2 : lp < 2 ^ 64 := h2
  replace h3 : 0 < mq := h3
  replace h4 : mq < 2 ^ 64 := h4
  replace h5 : cid < 2 ^ 64 := h5
  unfold NewOrderInstructionV1.unpack v1Bytes
  simp only [List.append_assoc, take_natToLE_append, drop_natToLE_append,
    take_natToLE, leNat_natToLE_side, leNat_natToLE_otype,
    leNat_natToLE (show lp < 256 ^ 8 by omega),
    leNat_natToLE (show mq < 256 ^ 8 by omega),
    leNat_natToLE (show cid < 256 ^ 8 by omega),
    nonZeroU64_pos h1, nonZeroU64_pos h3, Option.some_bind,
    Option.pure_def]
  cases side <;> cases ot <;> rfl

theorem sendTake_unpack_bytes {t : SendTakeInstruction}
    (hv : t.valid) :
    SendTakeInstruction.unpack (sendTakeBytes t) = some t := by
  obtain ⟨h1, h2, h3, h4, h5, h6, h7, h8, h9⟩ := hv
  unfold SendTakeInstruction.unpack sendTakeBytes
  simp only [List.append_assoc, take_natToLE_append, drop_natToLE_append,
    take_natToLE, leNat_natToLE_side, side_code_roundtrip,
    leNat_natToLE (show t.limit_price < 256 ^ 8 by omega),
    leNat_natToLE (show t.max_coin_qty < 256 ^ 8 by omega),
    leNat_natToLE
      (show t.max_native_pc_qty_including_fees < 256 ^ 8 by omega),
    leNat_natToLE (show t.min_coin_qty < 256 ^ 8 by omega),
    leNat_natToLE (show t.min_native_pc_qty < 256 ^ 8 by omega),
    leNat_natToLE (show t.limit < 256 ^ 2 by omega),
    nonZeroU64_pos h1, nonZeroU64_pos h3, nonZeroU64_pos h5,
    Option.some_bind, Option.pure_def]
  rfl

theorem cancelOrderV2_unpack_bytes
    (c : CancelOrderInstructionV2) (h : c.order_id < 2 ^ 128) :
    CancelOrderInstructionV2.unpack
      (natToLE 4 (sideU32 c.side) ++ natToLE 16 c.order_id) = some c := by
  unfold CancelOrderInstructionV2.unpack
  simp only [take_natToLE_append, drop_natToLE_append, take_natToLE,
    leNat_natToLE_side, side_code_roundtrip,
    leNat_natToLE (show c.order_id < 256 ^ 16 by omega),
    Option.some_bind, Option.pure_def]
  rfl

/-! ### Round trips of the dispatch-arm bodies -/

theorem map_leNat_natToLE {l : List Nat} (h : ∀ x ∈ l, x < 2 ^ 64) :
    (l.map (natToLE 8)).map leNat = l := by
  rw [List.map_map]
  have hcongr : ∀ x ∈ l, (leNat ∘ natToLE 8) x = id x := fun x hx =>
    leNat_natToLE (show x < 256 ^ 8 by have := h x hx; omega)
  rw [List.map_congr_left hcongr, List.map_id]

theorem initializeMarketBody_bytes (i : InitializeMarketInstruction)
    (h1 : i.coin_lot_size < 2 ^ 64) (h2 : i.pc_lot_size < 2 ^ 64)
    (h3 : i.fee_rate_bps < 2 ^ 16) (h4 : i.vault_signer_nonce < 2 ^ 64)
    (h5 : i.pc_dust_threshold < 2 ^ 64) :
    initializeMarketBody
      (natToLE 8 i.coin_lot_size ++ (natToLE 8 i.pc_lot_size ++
        (natToLE 2 i.fee_rate_bps ++ (natToLE 8 i.vault_signer_nonce ++
          natToLE 8 i.pc_dust_threshold)))) =
      some (.InitializeMarket i) := by
  unfold initializeMarketBody
  simp only [take_natToLE_append, drop_natToLE_append, take_natToLE,
    leNat_natToLE (show i.coin_lot_size < 256 ^ 8 by omega),
    leNat_natToLE (show i.pc_lot_size < 256 ^ 8 by omega),
    leNat_natToLE (show i.fee_rate_bps < 256 ^ 2 by omega),
    leNat_natToLE (show i.vault_signer_nonce < 256 ^ 8 by omega),
    leNat_natToLE (show i.pc_dust_threshold < 256 ^ 8 by omega)]

theorem cancelOrderBody_bytes {c : CancelOrderInstruction}
    (h1 : c.order_id < 2 ^ 128) (h2 : c.owner.length = 4)
    (h3 : ∀ x ∈ c.owner, x < 2 ^ 64) (h4 : c.owner_slot < 2 ^ 8) :
    cancelOrderBody
      (natToLE 4 (sideU32 c.side) ++ (natToLE 16 c.order_id ++
        ((c.owner.map (natToLE 8)).flatten ++
          natToLE 1 c.owner_slot))) =
      some (.CancelOrder c) := by
  obtain ⟨side, order_id, owner, owner_slot⟩ := c
  replace h1 : order_id < 2 ^ 128 := h1
  replace h2 : owner.length = 4 := h2
  replace h3 : ∀ x ∈ owner, x < 2 ^ 64 := h3
  replace h4 : owner_slot < 2 ^ 8 := h4
  have hflat : ((owner.map (natToLE 8)).flatten).length = 8 * 4 := by
    rw [flatten_map_const_length (natToLE 8) owner
      (fun x hx => natToLE_length 8 x), h2]
  unfold cancelOrderBody
  simp only [take_natToLE_append, drop_natToLE_append, take_natToLE,
    take_append_exact _ hflat, drop_append_exact _ hflat,
    leNat_natToLE_side,
    leNat_natToLE (show order_id < 256 ^ 16 by omega),
    leNat_natToLE (show owner_slot < 256 ^ 1 by omega),
    chunksExact_flatten_map (show 0 < 8 by omega) (natToLE 8) owner
      (fun x hx => natToLE_length 8 x),
    map_leNat_natToLE h3, Option.some_bind, Option.pure_def]
  cases side <;> rfl

theorem cancelOrdersByClientIdsBody_bytes {ids : List Nat}
    (hlen : ids.length = 8) (h : ∀ x ∈ ids, x < 2 ^ 64) :
    cancelOrdersByClientIdsBody ((ids.map (natToLE 8)).flatten) =
      .CancelOrdersByClientIds ids := by
  unfold cancelOrdersByClientIdsBody
  rw [chunksExact_flatten_map (show 0 < 8 by omega) (natToLE 8) ids
    (fun x hx => natToLE_length 8 x)]
  show MarketInstruction.CancelOrdersByClientIds
      (((ids.map (natToLE 8)).take 8).map leNat ++
        List.replicate (8 - (ids.map (natToLE 8)).length) 0) =
    MarketInstruction.CancelOrdersByClientIds ids
  have hmlen : (ids.map (natToLE 8)).length = 8 := by simp [hlen]
  rw [take_exact hmlen, hmlen]
  simp only [Nat.sub_self, List.replicate_zero, List.append_nil]
  rw [map_leNat_natToLE h]

theorem dispatch20_bytes {orders : List NewOrderInstructionV3}
    (hv : ∀ o ∈ orders, o.valid) (hle : orders.length ≤ 8) :
    dispatch 20
      (natToLE 8 orders.length ++ (orders.map v3Bytes).flatten) =
      .ok (some (.ReplaceOrdersByClientIds orders)) := by
  have hflat : ((orders.map v3Bytes).flatten).length =
      54 * orders.length :=
    flatten_map_const_length v3Bytes orders (fun o _ => v3Bytes_length o)
  have hlen : (natToLE 8 orders.length ++
      (orders.map v3Bytes).flatten).length = 8 + 54 * orders.length := by
    simp [hflat]
  rw [dispatch20_ok (by rw [hlen]; omega) (by rw [hlen]; omega)]
  rw [take_natToLE_append,
    leNat_natToLE (show orders.length < 256 ^ 8 by omega),
    drop_natToLE_append, hlen]
  rw [show (8 + 54 * orders.length - 8) / 54 = orders.length from by
    omega]
  rw [if_neg (by simp)]
  rw [chunksExact_flatten_map (show 0 < 54 by omega) v3Bytes orders
    (fun o _ => v3Bytes_length o)]
  rw [collectOption_map_roundtrip v3Bytes NewOrderInstructionV3.unpack
    orders (fun o ho => v3_unpack_bytes (hv o ho))]
  rfl

/-! ### Negative dispatch equations and decode-failure lemmas -/

theorem unpack_envelope_long {d : Nat} {p : List Nat}
    (h : 440 < p.length) :
    MarketInstruction.unpack (envelope d p) = none :=
  unpack_out_of_bounds (Or.inr (by rw [envelope_length]; omega))

theorem dispatch10_none {data : List Nat} (h46 : data.length ≠ 46)
    (h54 : data.length ≠ 54) : dispatch 10 data = .ok none := by
  simp [dispatch, h46, h54]

theorem dispatch18_none {data : List Nat}
    (h : ¬(data.length % 8 = 0 ∧ data.length ≤ 8 * 8)) :
    dispatch 18 data = .ok none := by
  by_cases hA : data.length % 8 = 0
  · have hB : ¬ data.length ≤ 8 * 8 := fun hB => h ⟨hA, hB⟩
    simp [dispatch, hA, hB]
  · simp [dispatch, hA]

theorem dispatch20_none {data : List Nat}
    (h : ¬(data.length % 54 = 8 ∧ data.length ≤ 8 + 8 * 54)) :
    dispatch 20 data = .ok none := by
  by_cases hA : data.length % 54 = 8
  · have hB : ¬ data.length ≤ 8 + 8 * 54 := fun hB => h ⟨hA, hB⟩
    simp [dispatch, hA, hB]
  · simp [dispatch, hA]

theorem dispatch_unknown {d : Nat} (data : List Nat) (h : 20 < d) :
    dispatch d data = .ok none := by
  have e0 : d ≠ 0 := by omega
  have e1 : d ≠ 1 := by omega
  have e2 : d ≠ 2 := by omega
  have e3 : d ≠ 3 := by omega
  have e4 : d ≠ 4 := by omega
  have e5 : d ≠ 5 := by omega
  have e6 : d ≠ 6 := by omega
  have e7 : d ≠ 7 := by omega
  have e8 : d ≠ 8 := by omega
  have e9 : d ≠ 9 := by omega
  have e10 : d ≠ 10 := by omega
  have e11 : d ≠ 11 := by omega
  have e12 : d ≠ 12 := by omega
  have e13 : d ≠ 13 := by omega
  have e14 : d ≠ 14 := by omega
  have e15 : d ≠ 15 := by omega
  have e16 : d ≠ 16 := by omega
  have e17 : d ≠ 17 := by omega
  have e18 : d ≠ 18 := by omega
  have e19 : d ≠ 19 := by omega
  have e20 : d ≠ 20 := by omega
  simp [dispatch, e0, e1, e2, e3, e4, e5, e6, e7, e8, e9, e10, e11,
    e12, e13, e14, e15, e16, e17, e18, e19, e20]

theorem option_bind_const_none {α β : Type} (x : Option α) :
    (x >>= fun _ => (none : Option β)) = none := by
  cases x <;> rfl

theorem slice_append_left {a : List Nat} (b : List Nat) {off len : Nat}
    (h : off + len ≤ a.length) :
    ((a ++ b).drop off).take len = (a.drop off).take len := by
  rw [List.drop_append_of_le_length (by omega),
    List.take_append_of_le_length (by simp; omega)]

theorem sideTryFromU32_none {n : Nat} (h0 : n ≠ 0) (h1 : n ≠ 1) :
    Side.tryFromU32 n = none := by
  simp [Side.tryFromU32, h0, h1]

theorem orderTypeTryFromU32_none {n : Nat} (h0 : n ≠ 0) (h1 : n ≠ 1)
    (h2 : n ≠ 2) : OrderType.tryFromU32 n = none := by
  simp [OrderType.tryFromU32, h0, h1, h2]

theorem stbTryFromU32_none {n : Nat} (h0 : n ≠ 0)
    (h1 : n ≠ 1) (h2 : n ≠ 2) :
    SelfTradeBehavior.tryFromU32 n = none := by
  simp [SelfTradeBehavior.tryFromU32, h0, h1, h2]

theorem v3_unpack_max_ts {data : List Nat}
    {w : NewOrderInstructionV3}
    (h : NewOrderInstructionV3.unpack data = some w) :
    w.max_ts = i64FromLE ((data.drop 46).take 8) := by
  unfold NewOrderInstructionV3.unpack at h
  simp only [List.drop_drop, Option.bind_eq_bind,
    Option.bind_eq_some, Option.pure_def, Option.some.injEq] at h
  obtain ⟨side, -, lp, -, mcq, -, mnq, -, stb, -, ot, -, hw⟩ := h
  rw [← hw]

theorem v3_unpack_none_of_zero {data : List Nat}
    (h : leNat ((data.drop 4).take 8) = 0 ∨
      leNat ((data.drop 12).take 8) = 0 ∨
      leNat ((data.drop 20).take 8) = 0) :
    NewOrderInstructionV3.unpack data = none := by
  unfold NewOrderInstructionV3.unpack
  rcases h with h | h | h <;>
    simp [List.drop_drop, h, nonZeroU64, option_bind_const_none]

theorem v1_unpack_none_of_zero {data : List Nat}
    (h : leNat ((data.drop 4).take 8) = 0 ∨
      leNat ((data.drop 12).take 8) = 0) :
    NewOrderInstructionV1.unpack data = none := by
  unfold NewOrderInstructionV1.unpack
  rcases h with h | h <;>
    simp [List.drop_drop, h, nonZeroU64, option_bind_const_none] <;>
    (split <;> rfl)

theorem sendTake_unpack_none_of_zero {data : List Nat}
    (h : leNat ((data.drop 4).take 8) = 0 ∨
      leNat ((data.drop 12).take 8) = 0 ∨
      leNat ((data.drop 20).take 8) = 0) :
    SendTakeInstruction.unpack data = none := by
  unfold SendTakeInstruction.unpack
  rcases h with h | h | h <;>
    simp [List.drop_drop, h, nonZeroU64, option_bind_const_none]

theorem v3_unpack_none_of_bad_enum
    {data : List Nat}
    (h : (leNat (data.take 4) ≠ 0 ∧ leNat (data.take 4) ≠ 1) ∨
      (leNat ((data.drop 28).take 4) ≠ 0 ∧
        leNat ((data.drop 28).take 4) ≠ 1 ∧
        leNat ((data.drop 28).take 4) ≠ 2) ∨
      (leNat ((data.drop 32).take 4) ≠ 0 ∧
        leNat ((data.drop 32).take 4) ≠ 1 ∧
        leNat ((data.drop 32).take 4) ≠ 2)) :
    NewOrderInstructionV3.unpack data = none := by
  unfold NewOrderInstructionV3.unpack
  rcases h with ⟨h0, h1⟩ | ⟨h0, h1, h2⟩ | ⟨h0, h1, h2⟩
  · simp [List.drop_drop, sideTryFromU32_none h0 h1,
      option_bind_const_none]
  · simp [List.drop_drop, stbTryFromU32_none h0 h1 h2,
      option_bind_const_none]
  · simp [List.drop_drop, orderTypeTryFromU32_none h0 h1 h2,
      option_bind_const_none]

theorem sendTake_unpack_none_of_bad_enum {data : List Nat}
    (h0 : leNat (data.take 4) ≠ 0) (h1 : leNat (data.take 4) ≠ 1) :
    SendTakeInstruction.unpack data = none := by
  unfold SendTakeInstruction.unpack
  simp [sideTryFromU32_none h0 h1]

theorem cancelOrderV2_unpack_none_of_bad_enum
    {data : List Nat} (h0 : leNat (data.take 4) ≠ 0)
    (h1 : leNat (data.take 4) ≠ 1) :
    CancelOrderInstructionV2.unpack data = none := by
  unfold CancelOrderInstructionV2.unpack
  simp [sideTryFromU32_none h0 h1]

theorem v1_unpack_none_of_bad_enum
    {data : List Nat}
    (h : (leNat (data.take 4) ≠ 0 ∧ leNat (data.take 4) ≠ 1) ∨
      (leNat ((data.drop 20).take 4) ≠ 0 ∧
        leNat ((data.drop 20).take 4) ≠ 1 ∧
        leNat ((data.drop 20).take 4) ≠ 2)) :
    NewOrderInstructionV1.unpack data = none := by
  unfold NewOrderInstructionV1.unpack
  rcases h with ⟨h0, h1⟩ | ⟨h0, h1, h2⟩
  · simp only [List.drop_drop]
    rcases hu : leNat (data.take 4) with _ | _ | m
    · omega
    · omega
    · rfl
  · simp only [List.drop_drop]
    rcases hu : leNat ((data.drop 20).take 4) with _ | _ | _ | m
    · omega
    · omega
    · omega
    · rcases leNat (data.take 4) with _ | _ | k <;>
        simp [option_bind_const_none]

theorem cancelOrderBody_none_of_bad_side {data : List Nat}
    (h0 : leNat (data.take 4) ≠ 0) (h1 : leNat (data.take 4) ≠ 1) :
    cancelOrderBody data = none := by
  unfold cancelOrderBody
  simp only [Option.pure_def]
  rcases hu : leNat (data.take 4) with _ | _ | m
  · omega
  · omega
  · rfl

theorem take_take_small {p : List Nat} {n m : Nat} (h : n ≤ m) :
    (p.take m).take n = p.take n := by
  rw [List.take_take, min_eq_left h]

theorem slice_take {p : List Nat} (off len m : Nat)
    (h : off + len ≤ m) :
    ((p.take m).drop off).take len = (p.drop off).take len := by
  rw [List.drop_take, List.take_take, min_eq_left (by omega)]

theorem collectOption_none_of_mem {α β : Type} {f : α → Option β}
    {l : List α} {x : α} (hx : x ∈ l) (hf : f x = none) :
    collectOption f l = none := by
  induction l with
  | nil => cases hx
  | cons y ys ih =>
    rcases List.mem_cons.mp hx with rfl | hmem
    · simp [collectOption, hf]
    · cases hy : f y
      · simp [collectOption, hy]
      · simp [collectOption, hy, ih hmem]

/-! ### Claims -/

/-- C2: for every input byte list, `MarketInstruction::unpack`
terminates (it is a total function of this development) and returns an
ordinary `Option` — the panic-tracking semantics `unpackE` always
returns `Except.ok` of exactly that `Option`, so no slice access on
the decode path is ever out of bounds, and the result is either `some`
command or `none`. -/
theorem c2_decode_total_no_panic (bs : List Nat) :
    MarketInstruction.unpackE bs = .ok (MarketInstruction.unpack bs) ∧
      ((MarketInstruction.unpack bs).isSome = true ∨
        (MarketInstruction.unpack bs).isNone = true) := by
  refine ⟨unpackE_eq_ok bs, ?_⟩
  cases MarketInstruction.unpack bs
  · right; rfl
  · left; rfl

/-- C6: envelope gating — a buffer shorter than 5 bytes, longer than
`5 + 8 + 54 * 8` bytes, or whose first (version) byte is not 0 is
rejected by `MarketInstruction::unpack` regardless of discriminant or
payload content. -/
theorem c6_envelope_gating (bs : List Nat)
    (h : bs.length < 5 ∨ 5 + 8 + 54 * 8 < bs.length ∨
      bs.head? ≠ some 0) :
    MarketInstruction.unpack bs = none := by
  rcases h with h | h | h
  · exact unpack_out_of_bounds (Or.inl h)
  · exact unpack_out_of_bounds (Or.inr h)
  · cases bs with
    | nil => exact unpack_out_of_bounds (Or.inl (by simp))
    | cons v rest =>
      have hv : v ≠ 0 := by simpa using h
      exact unpack_bad_version hv rest

/-- Witness for C6 at the concrete 5-byte buffer `[1, 0, 0, 0, 0]`
(version byte 1): the hypothesis holds and unpack rejects it; a
length-4 buffer is also rejected. -/
theorem c6_envelope_gating_witness :
    (([1, 0, 0, 0, 0] : List Nat).length < 5 ∨
      5 + 8 + 54 * 8 < ([1, 0, 0, 0, 0] : List Nat).length ∨
      ([1, 0, 0, 0, 0] : List Nat).head? ≠ some 0) ∧
      MarketInstruction.unpack [1, 0, 0, 0, 0] = none ∧
      MarketInstruction.unpack [0, 18, 0, 0] = none := by
  exact ⟨by decide, c6_envelope_gating _ (by decide),
    c6_envelope_gating _ (by decide)⟩

/-- C10: empty batches are accepted — the 5-byte buffer
`[0, 18, 0, 0, 0]` decodes to `CancelOrdersByClientIds` with all 8
slots zero, and the 13-byte buffer with discriminant 20 and an 8-byte
all-zero payload (count 0, no records) decodes to
`ReplaceOrdersByClientIds []`. -/
theorem c10_empty_batches :
    MarketInstruction.unpack [0, 18, 0, 0, 0] =
      some (.CancelOrdersByClientIds [0, 0, 0, 0, 0, 0, 0, 0]) ∧
    MarketInstruction.unpack
        [0, 20, 0, 0, 0, 0, 0, 0, 0, 0, 0, 0, 0] =
      some (.ReplaceOrdersByClientIds []) := by
  constructor <;> decide

/-- C1 (amended): round trip of the codec — for every constructible
`MarketInstruction` value `c` (fields within their machine widths,
`NonZeroU64` fields nonzero) whose `ReplaceOrdersByClientIds` batch,
if any, has at most 8 orders, `unpack (pack c) = some c`.  The batch
bound is forced by the counterexample below: a 9-order batch encodes
past the decoder's envelope bound and is rejected. -/
theorem c1_round_trip (c : MarketInstruction) (hv : c.valid)
    (hb : c.batchBound) :
    MarketInstruction.unpack (MarketInstruction.pack c) = some c := by
  cases c with
  | InitializeMarket i =>
    obtain ⟨h1, h2, h3, h4, h5⟩ := hv
    have hp : MarketInstruction.pack (.InitializeMarket i) =
        envelope 0 (natToLE 8 i.coin_lot_size ++
          (natToLE 8 i.pc_lot_size ++ (natToLE 2 i.fee_rate_bps ++
            (natToLE 8 i.vault_signer_nonce ++
              natToLE 8 i.pc_dust_threshold)))) := by
      simp [MarketInstruction.pack, envelope]
    rw [hp]
    have hplen : (natToLE 8 i.coin_lot_size ++
        (natToLE 8 i.pc_lot_size ++ (natToLE 2 i.fee_rate_bps ++
          (natToLE 8 i.vault_signer_nonce ++
            natToLE 8 i.pc_dust_threshold)))).length = 34 := by
      simp
    exact unpack_dispatch (by norm_num) (by omega)
      (by rw [dispatch0_34 hplen,
        initializeMarketBody_bytes i h1 h2 h3 h4 h5])
  | NewOrder o =>
    have hp : MarketInstruction.pack (.NewOrder o) =
        envelope 1 (v1Bytes o) := rfl
    rw [hp]
    have hplen := v1Bytes_length o
    exact unpack_dispatch (by norm_num) (by omega)
      (by rw [dispatch1_32 hplen,
        v1_unpack_bytes hv]; rfl)
  | MatchOrders limit =>
    have hp : MarketInstruction.pack (.MatchOrders limit) =
        envelope 2 (natToLE 2 limit) := rfl
    rw [hp]
    exact unpack_dispatch (by norm_num)
      (by rw [natToLE_length]; omega)
      (by rw [dispatch2_2 (natToLE_length 2 limit),
        leNat_natToLE (show limit < 256 ^ 2 by omega)])
  | ConsumeEvents limit =>
    have hp : MarketInstruction.pack (.ConsumeEvents limit) =
        envelope 3 (natToLE 2 limit) := rfl
    rw [hp]
    exact unpack_dispatch (by norm_num)
      (by rw [natToLE_length]; omega)
      (by rw [dispatch3_2 (natToLE_length 2 limit),
        leNat_natToLE (show limit < 256 ^ 2 by omega)])
  | CancelOrder c =>
    obtain ⟨h1, h2, h3, h4⟩ := hv
    have hflat : ((c.owner.map (natToLE 8)).flatten).length = 32 := by
      rw [flatten_map_const_length (natToLE 8) c.owner
        (fun x _ => natToLE_length 8 x), h2]
    have hp : MarketInstruction.pack (.CancelOrder c) =
        envelope 4 (natToLE 4 (sideU32 c.side) ++
          (natToLE 16 c.order_id ++
            ((c.owner.map (natToLE 8)).flatten ++
              natToLE 1 c.owner_slot))) := by
      simp [MarketInstruction.pack, envelope]
    rw [hp]
    have hplen : (natToLE 4 (sideU32 c.side) ++
        (natToLE 16 c.order_id ++
          ((c.owner.map (natToLE 8)).flatten ++
            natToLE 1 c.owner_slot))).length = 53 := by
      simp [hflat]
    exact unpack_dispatch (by norm_num) (by omega)
      (by rw [dispatch4_53 hplen, cancelOrderBody_bytes h1 h2 h3 h4])
  | SettleFunds => decide
  | CancelOrderByClientId client_id =>
    have hp : MarketInstruction.pack (.CancelOrderByClientId client_id) =
        envelope 6 (natToLE 8 client_id) := rfl
    rw [hp]
    exact unpack_dispatch (by norm_num)
      (by rw [natToLE_length]; omega)
      (by rw [dispatch6_8 (natToLE_length 8 client_id),
        leNat_natToLE (show client_id < 256 ^ 8 by omega)])
  | DisableMarket => decide
  | SweepFees => decide
  | NewOrderV2 o =>
    obtain ⟨h1, h2, h3, h4, h5⟩ := hv
    have hp : MarketInstruction.pack (.NewOrderV2 o) =
        envelope 9 (v2Bytes o) := rfl
    rw [hp]
    have hplen := v2Bytes_length o
    refine unpack_dispatch (by norm_num) (by omega) ?_
    rw [dispatch9_36 hplen]
    have hbody : (v2Bytes o).take 32 =
        v1Bytes { side := o.side, limit_price := o.limit_price,
                  max_qty := o.max_qty, order_type := o.order_type,
                  client_id := o.client_id } := by
      unfold v2Bytes
      exact take_append_exact _ (v1Bytes_length _)
    have htail : ((v2Bytes o).drop 32).take 4 =
        natToLE 4 (stbU32 o.self_trade_behavior) := by
      unfold v2Bytes
      rw [drop_append_exact _ (v1Bytes_length _), take_natToLE]
    rw [hbody, htail,
      @v1_unpack_bytes
        { side := o.side, limit_price := o.limit_price,
          max_qty := o.max_qty, order_type := o.order_type,
          client_id := o.client_id } ⟨h1, h2, h3, h4, h5⟩,
      leNat_natToLE_stb, stb_code_roundtrip]
    rfl
  | NewOrderV3 o =>
    have hp : MarketInstruction.pack (.NewOrderV3 o) =
        envelope 10 (v3Bytes o) := rfl
    rw [hp]
    have hplen := v3Bytes_length o
    exact unpack_dispatch (by norm_num) (by omega)
      (by rw [dispatch10_54 hplen,
        v3_unpack_bytes hv]; rfl)
  | CancelOrderV2 c =>
    have hp : MarketInstruction.pack (.CancelOrderV2 c) =
        envelope 11 (natToLE 4 (sideU32 c.side) ++
          natToLE 16 c.order_id) := by
      simp [MarketInstruction.pack, envelope]
    rw [hp]
    have hplen : (natToLE 4 (sideU32 c.side) ++
        natToLE 16 c.order_id).length = 20 := by
      simp
    exact unpack_dispatch (by norm_num) (by omega)
      (by rw [dispatch11_20 hplen,
        cancelOrderV2_unpack_bytes c hv]; rfl)
  | CancelOrderByClientIdV2 client_id =>
    have hp :
        MarketInstruction.pack (.CancelOrderByClientIdV2 client_id) =
          envelope 12 (natToLE 8 client_id) := rfl
    rw [hp]
    exact unpack_dispatch (by norm_num)
      (by rw [natToLE_length]; omega)
      (by rw [dispatch12_8 (natToLE_length 8 client_id),
        leNat_natToLE (show client_id < 256 ^ 8 by omega)])
  | SendTake t =>
    have hp : MarketInstruction.pack (.SendTake t) =
        envelope 13 (sendTakeBytes t) := rfl
    rw [hp]
    have hplen := sendTakeBytes_length t
    exact unpack_dispatch (by norm_num) (by omega)
      (by rw [dispatch13_46 hplen,
        sendTake_unpack_bytes hv]; rfl)
  | CloseOpenOrders => decide
  | InitOpenOrders => decide
  | Prune limit =>
    have hp : MarketInstruction.pack (.Prune limit) =
        envelope 16 (natToLE 2 limit) := rfl
    rw [hp]
    exact unpack_dispatch (by norm_num)
      (by rw [natToLE_length]; omega)
      (by rw [dispatch16_2 (natToLE_length 2 limit),
        leNat_natToLE (show limit < 256 ^ 2 by omega)])
  | ConsumeEventsPermissioned limit =>
    have hp :
        MarketInstruction.pack (.ConsumeEventsPermissioned limit) =
          envelope 17 (natToLE 2 limit) := rfl
    rw [hp]
    exact unpack_dispatch (by norm_num)
      (by rw [natToLE_length]; omega)
      (by rw [dispatch17_2 (natToLE_length 2 limit),
        leNat_natToLE (show limit < 256 ^ 2 by omega)])
  | CancelOrdersByClientIds ids =>
    obtain ⟨hlen, hids⟩ := hv
    have hp : MarketInstruction.pack (.CancelOrdersByClientIds ids) =
        envelope 18 ((ids.map (natToLE 8)).flatten) := rfl
    rw [hp]
    have hflat : ((ids.map (natToLE 8)).flatten).length = 64 := by
      rw [flatten_map_const_length (natToLE 8) ids
        (fun x _ => natToLE_length 8 x), hlen]
    exact unpack_dispatch (by norm_num) (by omega)
      (by rw [dispatch18_ok (by omega) (by omega),
        cancelOrdersByClientIdsBody_bytes hlen hids])
  | ReplaceOrderByClientId o =>
    have hp : MarketInstruction.pack (.ReplaceOrderByClientId o) =
        envelope 19 (v3Bytes o) := rfl
    rw [hp]
    have hplen := v3Bytes_length o
    exact unpack_dispatch (by norm_num) (by omega)
      (by rw [dispatch19_54 hplen,
        v3_unpack_bytes hv]; rfl)
  | ReplaceOrdersByClientIds orders =>
    replace hb : orders.length ≤ 8 := hb
    have hp : MarketInstruction.pack (.ReplaceOrdersByClientIds orders) =
        envelope 20 (natToLE 8 orders.length ++
          (orders.map v3Bytes).flatten) := by
      simp [MarketInstruction.pack, envelope]
    rw [hp]
    have hflat : ((orders.map v3Bytes).flatten).length =
        54 * orders.length :=
      flatten_map_const_length v3Bytes orders
        (fun o _ => v3Bytes_length o)
    have hplen : (natToLE 8 orders.length ++
        (orders.map v3Bytes).flatten).length =
          8 + 54 * orders.length := by
      simp [hflat]
    exact unpack_dispatch (by norm_num) (by omega)
      (dispatch20_bytes hv hb)

set_option maxRecDepth 40000 in
/-- C1 counterexample to the claim as stated: `oversizedBatch` is a
valid constructible `MarketInstruction` (all fields well typed), yet
`unpack (pack oversizedBatch)` is `none`, not `some oversizedBatch` —
its encoding is 499 bytes, beyond the envelope bound 445. -/
theorem c1_counterexample :
    MarketInstruction.valid oversizedBatch ∧
      MarketInstruction.unpack (MarketInstruction.pack oversizedBatch) ≠
        some oversizedBatch := by
  constructor
  · decide
  · decide

/-- Witness for C1 at the concrete command `NewOrderV3 sampleOrder`:
the hypotheses hold and the round trip succeeds. -/
theorem c1_round_trip_witness :
    MarketInstruction.valid (.NewOrderV3 sampleOrder) ∧
      MarketInstruction.batchBound (.NewOrderV3 sampleOrder) ∧
      MarketInstruction.unpack
          (MarketInstruction.pack (.NewOrderV3 sampleOrder)) =
        some (.NewOrderV3 sampleOrder) :=
  ⟨by decide, by decide,
    c1_round_trip (.NewOrderV3 sampleOrder) (by decide) (by decide)⟩

/-- C3: legacy shim at discriminant 10 — a 46-byte payload decodes
exactly like the 54-byte payload obtained by appending the 8
little-endian bytes of `i64::MAX`; on success the decoded order's
`max_ts` is `9223372036854775807`; and any payload length other than
46 or 54 is rejected. -/
theorem c3_legacy_shim (p : List Nat) :
    (p.length = 46 →
      MarketInstruction.unpack (envelope 10 p) =
        MarketInstruction.unpack
          (envelope 10 (p ++ natToLE 8 (2 ^ 63 - 1)))) ∧
    (p.length = 46 → ∀ v : NewOrderInstructionV3,
      MarketInstruction.unpack (envelope 10 p) =
        some (.NewOrderV3 v) →
      v.max_ts = 9223372036854775807) ∧
    (p.length ≠ 46 → p.length ≠ 54 →
      MarketInstruction.unpack (envelope 10 p) = none) := by
  refine ⟨?_, ?_, ?_⟩
  · intro h46
    have hext : (p ++ natToLE 8 (2 ^ 63 - 1)).length = 54 := by
      simp [h46]
    rw [unpack_dispatch (by norm_num) (by omega) (dispatch10_46 h46),
      unpack_dispatch (by norm_num) (by omega) (dispatch10_54 hext)]
  · intro h46 v hsome
    rw [unpack_dispatch (by norm_num) (by omega)
      (dispatch10_46 h46)] at hsome
    cases hu : NewOrderInstructionV3.unpack
        (p ++ natToLE 8 (2 ^ 63 - 1)) with
    | none => rw [hu] at hsome; simp at hsome
    | some w =>
      rw [hu] at hsome
      simp at hsome
      subst hsome
      rw [v3_unpack_max_ts hu,
        drop_append_exact _ h46, take_natToLE]
      decide
  · intro h46 h54
    by_cases hlen : p.length ≤ 440
    · exact unpack_dispatch (by norm_num) hlen
        (dispatch10_none h46 h54)
    · exact unpack_envelope_long (by omega)

/-- Witness for C3 at the all-zero 46-byte payload: shim equivalence
holds there (both decodes fail on the zero limit price, equally), and
a 50-byte payload is rejected. -/
theorem c3_legacy_shim_witness :
    ((List.replicate 46 0 : List Nat).length = 46 ∧
      MarketInstruction.unpack (envelope 10 (List.replicate 46 0)) =
        MarketInstruction.unpack (envelope 10
          (List.replicate 46 0 ++ natToLE 8 (2 ^ 63 - 1)))) ∧
    MarketInstruction.unpack (envelope 10 (List.replicate 50 0)) =
      none :=
  ⟨⟨by decide, (c3_legacy_shim _).1 (by decide)⟩,
    (c3_legacy_shim _).2.2 (by decide) (by decide)⟩

/-- C4: batch count consistency at discriminant 20 — a payload is
accepted only when its length `L` satisfies `L % 54 = 8` and
`L ≤ 8 + 8 * 54`; the leading 8-byte little-endian count must equal
`(L - 8) / 54` or the decode is `none`; when every 54-byte record
decodes, the result is `ReplaceOrdersByClientIds` of exactly the
per-record decodes in input order (so exactly `(L - 8) / 54`
elements); if any record fails the whole decode is `none`. -/
theorem c4_batch_count :
    (∀ p : List Nat, ¬(p.length % 54 = 8 ∧ p.length ≤ 8 + 8 * 54) →
      MarketInstruction.unpack (envelope 20 p) = none) ∧
    (∀ p : List Nat, p.length % 54 = 8 → p.length ≤ 8 + 8 * 54 →
      leNat (p.take 8) ≠ (p.length - 8) / 54 →
      MarketInstruction.unpack (envelope 20 p) = none) ∧
    (∀ (p : List Nat) (os : List NewOrderInstructionV3),
      p.length % 54 = 8 → p.length ≤ 8 + 8 * 54 →
      leNat (p.take 8) = (p.length - 8) / 54 →
      collectOption NewOrderInstructionV3.unpack
        (chunksExact 54 (p.drop 8)) = some os →
      MarketInstruction.unpack (envelope 20 p) =
        some (.ReplaceOrdersByClientIds os) ∧
        os.length = (p.length - 8) / 54) ∧
    (∀ p : List Nat, p.length % 54 = 8 → p.length ≤ 8 + 8 * 54 →
      collectOption NewOrderInstructionV3.unpack
        (chunksExact 54 (p.drop 8)) = none →
      MarketInstruction.unpack (envelope 20 p) = none) := by
  refine ⟨?_, ?_, ?_, ?_⟩
  · intro p h
    by_cases hlen : p.length ≤ 440
    · exact unpack_dispatch (by norm_num) hlen (dispatch20_none h)
    · exact unpack_envelope_long (by omega)
  · intro p h54 hle hcount
    rw [unpack_dispatch (by norm_num) (by omega)
      (dispatch20_ok h54 hle)]
    rw [if_pos hcount]
  · intro p os h54 hle hcount hcol
    constructor
    · rw [unpack_dispatch (by norm_num) (by omega)
        (dispatch20_ok h54 hle)]
      rw [if_neg (by simp [hcount]), hcol]
      rfl
    · rw [collectOption_length hcol, chunksExact_length]
      simp
  · intro p h54 hle hcol
    rw [unpack_dispatch (by norm_num) (by omega)
      (dispatch20_ok h54 hle)]
    by_cases hcount : leNat (p.take 8) = (p.length - 8) / 54
    · rw [if_neg (by simp [hcount]), hcol]
      rfl
    · rw [if_pos hcount]

set_option maxRecDepth 100000 in
/-- Witness for C4: the spec's concrete case — a payload of length
`8 + 54 * 3` whose leading count encodes 2 (not 3) is rejected, and
the same three records with count 3 decode to exactly those 3 records
in order. -/
theorem c4_batch_count_witness :
    ((natToLE 8 2 ++
        (List.replicate 3 (v3Bytes sampleOrder)).flatten).length % 54 =
        8 ∧
      MarketInstruction.unpack (envelope 20 (natToLE 8 2 ++
        (List.replicate 3 (v3Bytes sampleOrder)).flatten)) = none) ∧
    MarketInstruction.unpack (envelope 20 (natToLE 8 3 ++
        (List.replicate 3 (v3Bytes sampleOrder)).flatten)) =
      some (.ReplaceOrdersByClientIds
        (List.replicate 3 sampleOrder)) :=
  ⟨⟨by decide,
    (c4_batch_count.2.1) _ (by decide) (by decide) (by decide)⟩,
    ((c4_batch_count.2.2.1) _ (List.replicate 3 sampleOrder)
      (by decide) (by decide) (by decide) (by decide)).1⟩

/-- C5: padding at discriminant 18 — exactly the payload lengths that
are multiples of 8 and at most 64 are accepted; an accepted payload of
`8 * k` bytes decodes to an 8-slot array whose first `k` slots are the
little-endian ids in input order and whose remaining `8 - k` slots are
0; in particular three 8-byte ids decode to those three ids followed
by five zeros. -/
theorem c5_padding :
    (∀ p : List Nat, ¬(p.length % 8 = 0 ∧ p.length ≤ 64) →
      MarketInstruction.unpack (envelope 18 p) = none) ∧
    (∀ p : List Nat, p.length % 8 = 0 → p.length ≤ 64 →
      MarketInstruction.unpack (envelope 18 p) =
        some (.CancelOrdersByClientIds
          ((chunksExact 8 p).map leNat ++
            List.replicate (8 - p.length / 8) 0))) ∧
    (∀ a b c : List Nat, a.length = 8 → b.length = 8 → c.length = 8 →
      MarketInstruction.unpack (envelope 18 (a ++ (b ++ c))) =
        some (.CancelOrdersByClientIds
          [leNat a, leNat b, leNat c, 0, 0, 0, 0, 0])) := by
  have hgen : ∀ p : List Nat, p.length % 8 = 0 → p.length ≤ 64 →
      MarketInstruction.unpack (envelope 18 p) =
        some (.CancelOrdersByClientIds
          ((chunksExact 8 p).map leNat ++
            List.replicate (8 - p.length / 8) 0)) := by
    intro p h8 h64
    rw [unpack_dispatch (by norm_num) (by omega)
      (dispatch18_ok h8 (by omega))]
    unfold cancelOrdersByClientIdsBody
    show some (MarketInstruction.CancelOrdersByClientIds
        (((chunksExact 8 p).take 8).map leNat ++
          List.replicate (8 - (chunksExact 8 p).length) 0)) = _
    have hck : (chunksExact 8 p).length = p.length / 8 :=
      chunksExact_length 8 p
    rw [List.take_of_length_le (by omega), hck]
  refine ⟨?_, hgen, ?_⟩
  · intro p h
    by_cases hlen : p.length ≤ 440
    · exact unpack_dispatch (by norm_num) hlen (dispatch18_none h)
    · exact unpack_envelope_long (by omega)
  · intro a b c ha hb hc
    have habc : (a ++ (b ++ c)).length = 24 := by simp [ha, hb, hc]
    rw [hgen _ (by omega) (by omega)]
    have hc1 : chunksExact 8 c = [c] := by
      simp [chunksExact, hc,
        show List.range 1 = [0] from rfl,
        List.take_of_length_le hc.le]
    have hchunks : chunksExact 8 (a ++ (b ++ c)) = [a, b, c] := by
      rw [chunksExact_cons (by omega) _ ha,
        chunksExact_cons (by omega) _ hb, hc1]
    rw [hchunks, habc]
    rfl

/-- Witness for C5 at the spec's concrete 24-byte payload of three
ids (42, 43, 44): the first three slots are the ids, the last five
are 0; and a 7-byte payload is rejected. -/
theorem c5_padding_witness :
    MarketInstruction.unpack (envelope 18 (natToLE 8 42 ++
        (natToLE 8 43 ++ natToLE 8 44))) =
      some (.CancelOrdersByClientIds [42, 43, 44, 0, 0, 0, 0, 0]) ∧
    MarketInstruction.unpack (envelope 18 (List.replicate 7 0)) =
      none := by
  constructor
  · rw [(c5_padding.2.2) _ _ _ (by decide) (by decide) (by decide)]
    decide
  · exact (c5_padding.1) _ (by decide)

/-- C7: exact-length dispatch — every fixed-size discriminant accepts
exactly the single payload length given by `fixedLen` (0→34, 1→32,
2→2, 3→2, 4→53, 5→0, 6→8, 7→0, 8→0, 9→36, 11→20, 12→8, 13→46, 14→0,
15→0, 16→2, 17→2, 19→54) and rejects every other length; every
discriminant above 20 is rejected; discriminant 0 rejects payload
lengths 33 and 35 and accepts the all-zero 34-byte payload as
`InitializeMarket` with all five fields 0. -/
theorem c7_length_dispatch :
    (∀ (d L : Nat) (p : List Nat), fixedLen d = some L →
      p.length ≠ L → MarketInstruction.unpack (envelope d p) = none) ∧
    (∀ (d : Nat) (p : List Nat), 20 < d → d < 2 ^ 32 →
      MarketInstruction.unpack (envelope d p) = none) ∧
    MarketInstruction.unpack (envelope 0 (List.replicate 33 0)) =
      none ∧
    MarketInstruction.unpack (envelope 0 (List.replicate 35 0)) =
      none ∧
    MarketInstruction.unpack (envelope 0 (List.replicate 34 0)) =
      some (.InitializeMarket
        { coin_lot_size := 0, pc_lot_size := 0, fee_rate_bps := 0,
          vault_signer_nonce := 0, pc_dust_threshold := 0 }) := by
  refine ⟨?_, ?_, by decide, by decide, by decide⟩
  · intro d L p hf hne
    by_cases hlen : p.length ≤ 440
    · unfold fixedLen at hf
      split at hf <;> cases hf <;>
        exact unpack_dispatch (by norm_num) hlen
          (by simp [dispatch, hne])
    · exact unpack_envelope_long (by omega)
  · intro d p hgt hlt
    by_cases hlen : p.length ≤ 440
    · exact unpack_dispatch hlt hlen (dispatch_unknown p hgt)
    · exact unpack_envelope_long (by omega)

/-- Witness for C7: discriminant 2 (`MatchOrders`, accepted length 2)
rejects a 3-byte payload, and discriminant 21 rejects its would-be
2-byte payload. -/
theorem c7_length_dispatch_witness :
    (fixedLen 2 = some 2 ∧
      MarketInstruction.unpack (envelope 2 (List.replicate 3 0)) =
        none) ∧
    MarketInstruction.unpack (envelope 21 (List.replicate 2 0)) =
      none :=
  ⟨⟨by decide, (c7_length_dispatch.1) 2 2 _ (by decide) (by decide)⟩,
    (c7_length_dispatch.2.1) 21 _ (by decide) (by decide)⟩

/-- C8: nonzero-field enforcement — wherever a field declared nonzero
(`limit_price` and `max_qty` in NewOrder V1/V2, and `limit_price`,
`max_coin_qty`, `max_native_pc_qty_including_fees` in NewOrderV3 and
SendTake) carries the raw little-endian value 0, the enclosing unpack
returns `none`; the offsets below are the fields' positions in each
payload. -/
theorem c8_nonzero_enforcement :
    (∀ p : List Nat, p.length = 32 →
      (leNat ((p.drop 4).take 8) = 0 ∨
        leNat ((p.drop 12).take 8) = 0) →
      MarketInstruction.unpack (envelope 1 p) = none) ∧
    (∀ p : List Nat, p.length = 36 →
      (leNat ((p.drop 4).take 8) = 0 ∨
        leNat ((p.drop 12).take 8) = 0) →
      MarketInstruction.unpack (envelope 9 p) = none) ∧
    (∀ p : List Nat, p.length = 46 ∨ p.length = 54 →
      (leNat ((p.drop 4).take 8) = 0 ∨
        leNat ((p.drop 12).take 8) = 0 ∨
        leNat ((p.drop 20).take 8) = 0) →
      MarketInstruction.unpack (envelope 10 p) = none) ∧
    (∀ p : List Nat, p.length = 46 →
      (leNat ((p.drop 4).take 8) = 0 ∨
        leNat ((p.drop 12).take 8) = 0 ∨
        leNat ((p.drop 20).take 8) = 0) →
      MarketInstruction.unpack (envelope 13 p) = none) := by
  refine ⟨?_, ?_, ?_, ?_⟩
  · intro p h32 hz
    exact unpack_dispatch (by norm_num) (by omega)
      (by rw [dispatch1_32 h32,
        v1_unpack_none_of_zero hz]; rfl)
  · intro p h36 hz
    have hz32 : leNat (((p.take 32).drop 4).take 8) = 0 ∨
        leNat (((p.take 32).drop 12).take 8) = 0 := by
      rw [slice_take 4 8 32 (by omega), slice_take 12 8 32 (by omega)]
      exact hz
    exact unpack_dispatch (by norm_num) (by omega)
      (by rw [dispatch9_36 h36,
        v1_unpack_none_of_zero hz32]; rfl)
  · intro p hlen hz
    rcases hlen with h46 | h54
    · have hzext : leNat ((((p ++ natToLE 8 (2 ^ 63 - 1))).drop 4).take 8) = 0 ∨
          leNat ((((p ++ natToLE 8 (2 ^ 63 - 1))).drop 12).take 8) = 0 ∨
          leNat ((((p ++ natToLE 8 (2 ^ 63 - 1))).drop 20).take 8) = 0 := by
        rw [slice_append_left _ (by omega),
          slice_append_left _ (by omega),
          slice_append_left _ (by omega)]
        exact hz
      exact unpack_dispatch (by norm_num) (by omega)
        (by rw [dispatch10_46 h46,
          v3_unpack_none_of_zero hzext]; rfl)
    · exact unpack_dispatch (by norm_num) (by omega)
        (by rw [dispatch10_54 h54,
          v3_unpack_none_of_zero hz]; rfl)
  · intro p h46 hz
    exact unpack_dispatch (by norm_num) (by omega)
      (by rw [dispatch13_46 h46,
        sendTake_unpack_none_of_zero hz]; rfl)

/-- Witness for C8: the spec's concrete case — a 32-byte NewOrderV1
payload (discriminant 1) whose `limit_price` bytes are all zero fails
even though every other field is well formed (side 0 = Bid, nonzero
quantity, order type 0 = Limit). -/
theorem c8_nonzero_enforcement_witness :
    ((natToLE 4 0 ++ natToLE 8 0 ++ natToLE 8 5 ++ natToLE 4 0 ++
        natToLE 8 9).length = 32 ∧
      MarketInstruction.unpack (envelope 1 (natToLE 4 0 ++
        natToLE 8 0 ++ natToLE 8 5 ++ natToLE 4 0 ++ natToLE 8 9)) =
        none) :=
  ⟨by decide, (c8_nonzero_enforcement.1) _ (by decide)
    (Or.inl (by decide))⟩

/-- C9: enum-range strictness — wherever a `Side`, `OrderType` or
`SelfTradeBehavior` code is decoded (as a 4-byte little-endian
integer at the offsets below), unpack succeeds only when the raw code
is in the valid set (Side: 0, 1; OrderType: 0, 1, 2;
SelfTradeBehavior: 0, 1, 2); any other code makes the decode of the
whole command return `none`, with no default substituted.  The
conjuncts cover every decode site: discriminants 1, 4, 9, 10 (both
the 46- and 54-byte shapes), 19, every 54-byte record of a
discriminant-20 batch, 11 and 13. -/
theorem c9_enum_range :
    (∀ p : List Nat, p.length = 32 →
      ((leNat (p.take 4) ≠ 0 ∧ leNat (p.take 4) ≠ 1) ∨
        (leNat ((p.drop 20).take 4) ≠ 0 ∧
          leNat ((p.drop 20).take 4) ≠ 1 ∧
          leNat ((p.drop 20).take 4) ≠ 2)) →
      MarketInstruction.unpack (envelope 1 p) = none) ∧
    (∀ p : List Nat, p.length = 53 → leNat (p.take 4) ≠ 0 →
      leNat (p.take 4) ≠ 1 →
      MarketInstruction.unpack (envelope 4 p) = none) ∧
    (∀ p : List Nat, p.length = 36 →
      ((leNat (p.take 4) ≠ 0 ∧ leNat (p.take 4) ≠ 1) ∨
        (leNat ((p.drop 20).take 4) ≠ 0 ∧
          leNat ((p.drop 20).take 4) ≠ 1 ∧
          leNat ((p.drop 20).take 4) ≠ 2) ∨
        (leNat ((p.drop 32).take 4) ≠ 0 ∧
          leNat ((p.drop 32).take 4) ≠ 1 ∧
          leNat ((p.drop 32).take 4) ≠ 2)) →
      MarketInstruction.unpack (envelope 9 p) = none) ∧
    (∀ p : List Nat, p.length = 46 ∨ p.length = 54 →
      ((leNat (p.take 4) ≠ 0 ∧ leNat (p.take 4) ≠ 1) ∨
        (leNat ((p.drop 28).take 4) ≠ 0 ∧
          leNat ((p.drop 28).take 4) ≠ 1 ∧
          leNat ((p.drop 28).take 4) ≠ 2) ∨
        (leNat ((p.drop 32).take 4) ≠ 0 ∧
          leNat ((p.drop 32).take 4) ≠ 1 ∧
          leNat ((p.drop 32).take 4) ≠ 2)) →
      MarketInstruction.unpack (envelope 10 p) = none) ∧
    (∀ p : List Nat, p.length = 54 →
      ((leNat (p.take 4) ≠ 0 ∧ leNat (p.take 4) ≠ 1) ∨
        (leNat ((p.drop 28).take 4) ≠ 0 ∧
          leNat ((p.drop 28).take 4) ≠ 1 ∧
          leNat ((p.drop 28).take 4) ≠ 2) ∨
        (leNat ((p.drop 32).take 4) ≠ 0 ∧
          leNat ((p.drop 32).take 4) ≠ 1 ∧
          leNat ((p.drop 32).take 4) ≠ 2)) →
      MarketInstruction.unpack (envelope 19 p) = none) ∧
    (∀ (p : List Nat) (i : Nat), p.length % 54 = 8 →
      p.length ≤ 8 + 8 * 54 → i < (p.length - 8) / 54 →
      ((leNat ((((p.drop 8).drop (54 * i)).take 54).take 4) ≠ 0 ∧
        leNat ((((p.drop 8).drop (54 * i)).take 54).take 4) ≠ 1) ∨
       (leNat (((((p.drop 8).drop (54 * i)).take 54).drop 28).take 4) ≠
          0 ∧
        leNat (((((p.drop 8).drop (54 * i)).take 54).drop 28).take 4) ≠
          1 ∧
        leNat (((((p.drop 8).drop (54 * i)).take 54).drop 28).take 4) ≠
          2) ∨
       (leNat (((((p.drop 8).drop (54 * i)).take 54).drop 32).take 4) ≠
          0 ∧
        leNat (((((p.drop 8).drop (54 * i)).take 54).drop 32).take 4) ≠
          1 ∧
        leNat (((((p.drop 8).drop (54 * i)).take 54).drop 32).take 4) ≠
          2)) →
      MarketInstruction.unpack (envelope 20 p) = none) ∧
    (∀ p : List Nat, p.length = 20 → leNat (p.take 4) ≠ 0 →
      leNat (p.take 4) ≠ 1 →
      MarketInstruction.unpack (envelope 11 p) = none) ∧
    (∀ p : List Nat, p.length = 46 → leNat (p.take 4) ≠ 0 →
      leNat (p.take 4) ≠ 1 →
      MarketInstruction.unpack (envelope 13 p) = none) := by
  refine ⟨?_, ?_, ?_, ?_, ?_, ?_, ?_, ?_⟩
  · intro p h32 hbad
    exact unpack_dispatch (by norm_num) (by omega)
      (by rw [dispatch1_32 h32,
        v1_unpack_none_of_bad_enum hbad]; rfl)
  · intro p h53 h0 h1
    exact unpack_dispatch (by norm_num) (by omega)
      (by rw [dispatch4_53 h53,
        cancelOrderBody_none_of_bad_side h0 h1])
  · intro p h36 hbad
    rcases hbad with hv1 | hv1 | ⟨h0, h1, h2⟩
    · have hz32 : (leNat ((p.take 32).take 4) ≠ 0 ∧
          leNat ((p.take 32).take 4) ≠ 1) ∨
          (leNat (((p.take 32).drop 20).take 4) ≠ 0 ∧
            leNat (((p.take 32).drop 20).take 4) ≠ 1 ∧
            leNat (((p.take 32).drop 20).take 4) ≠ 2) := by
        rw [take_take_small (by omega), slice_take 20 4 32 (by omega)]
        exact Or.inl hv1
      exact unpack_dispatch (by norm_num) (by omega)
        (by rw [dispatch9_36 h36,
          v1_unpack_none_of_bad_enum hz32]; rfl)
    · have hz32 : (leNat ((p.take 32).take 4) ≠ 0 ∧
          leNat ((p.take 32).take 4) ≠ 1) ∨
          (leNat (((p.take 32).drop 20).take 4) ≠ 0 ∧
            leNat (((p.take 32).drop 20).take 4) ≠ 1 ∧
            leNat (((p.take 32).drop 20).take 4) ≠ 2) := by
        rw [take_take_small (by omega), slice_take 20 4 32 (by omega)]
        exact Or.inr hv1
      exact unpack_dispatch (by norm_num) (by omega)
        (by rw [dispatch9_36 h36,
          v1_unpack_none_of_bad_enum hz32]; rfl)
    · refine unpack_dispatch (by norm_num) (by omega) ?_
      rw [dispatch9_36 h36]
      simp [stbTryFromU32_none h0 h1 h2,
        option_bind_const_none]
  · intro p hlen hbad
    rcases hlen with h46 | h54
    · have hext : (leNat ((p ++ natToLE 8 (2 ^ 63 - 1)).take 4) ≠ 0 ∧
          leNat ((p ++ natToLE 8 (2 ^ 63 - 1)).take 4) ≠ 1) ∨
          (leNat (((p ++ natToLE 8 (2 ^ 63 - 1)).drop 28).take 4) ≠ 0 ∧
            leNat (((p ++ natToLE 8 (2 ^ 63 - 1)).drop 28).take 4) ≠ 1 ∧
            leNat (((p ++ natToLE 8 (2 ^ 63 - 1)).drop 28).take 4) ≠
              2) ∨
          (leNat (((p ++ natToLE 8 (2 ^ 63 - 1)).drop 32).take 4) ≠ 0 ∧
            leNat (((p ++ natToLE 8 (2 ^ 63 - 1)).drop 32).take 4) ≠ 1 ∧
            leNat (((p ++ natToLE 8 (2 ^ 63 - 1)).drop 32).take 4) ≠
              2) := by
        rw [List.take_append_of_le_length (by omega),
          slice_append_left _ (by omega),
          slice_append_left _ (by omega)]
        exact hbad
      exact unpack_dispatch (by norm_num) (by omega)
        (by rw [dispatch10_46 h46,
          v3_unpack_none_of_bad_enum hext]; rfl)
    · exact unpack_dispatch (by norm_num) (by omega)
        (by rw [dispatch10_54 h54,
          v3_unpack_none_of_bad_enum hbad]; rfl)
  · intro p h54 hbad
    exact unpack_dispatch (by norm_num) (by omega)
      (by rw [dispatch19_54 h54,
        v3_unpack_none_of_bad_enum hbad]; rfl)
  · intro p i h54 hle hi hbad
    have hmem : ((p.drop 8).drop (54 * i)).take 54 ∈
        chunksExact 54 (p.drop 8) := by
      unfold chunksExact
      exact List.mem_map_of_mem _
        (List.mem_range.mpr (by simp [List.length_drop]; omega))
    rw [unpack_dispatch (by norm_num) (by omega)
      (dispatch20_ok h54 hle)]
    by_cases hcount : leNat (p.take 8) ≠ (p.length - 8) / 54
    · rw [if_pos hcount]
    · rw [if_neg hcount,
        collectOption_none_of_mem hmem
          (v3_unpack_none_of_bad_enum hbad)]
      rfl
  · intro p h20 h0 h1
    exact unpack_dispatch (by norm_num) (by omega)
      (by rw [dispatch11_20 h20,
        cancelOrderV2_unpack_none_of_bad_enum h0 h1]; rfl)
  · intro p h46 h0 h1
    exact unpack_dispatch (by norm_num) (by omega)
      (by rw [dispatch13_46 h46,
        sendTake_unpack_none_of_bad_enum h0 h1]; rfl)

set_option maxRecDepth 8000 in
/-- Witness for C9: a 32-byte NewOrderV1 payload whose 4-byte side
code is 2 (not in the valid set 0, 1) is rejected even though every
other field is well formed; a 20-byte CancelOrderV2 payload with side
code 7 is rejected; a 54-byte ReplaceOrderByClientId payload with
side code 5 is rejected; and a one-record ReplaceOrdersByClientIds
batch whose record carries side code 5 is rejected whole. -/
theorem c9_enum_range_witness :
    MarketInstruction.unpack (envelope 1 (natToLE 4 2 ++
        natToLE 8 3 ++ natToLE 8 5 ++ natToLE 4 0 ++ natToLE 8 9)) =
      none ∧
    MarketInstruction.unpack (envelope 11 (natToLE 4 7 ++
        natToLE 16 1)) = none ∧
    MarketInstruction.unpack (envelope 19 (natToLE 4 5 ++
        (v3Bytes sampleOrder).drop 4)) = none ∧
    MarketInstruction.unpack (envelope 20 (natToLE 8 1 ++
        (natToLE 4 5 ++ (v3Bytes sampleOrder).drop 4))) = none :=
  ⟨(c9_enum_range.1) _ (by decide) (Or.inl ⟨by decide, by decide⟩),
    (c9_enum_range.2.2.2.2.2.2.1) _ (by decide) (by decide)
      (by decide),
    (c9_enum_range.2.2.2.2.1) _ (by decide)
      (Or.inl ⟨by decide, by decide⟩),
    (c9_enum_range.2.2.2.2.2.1) _ 0 (by decide) (by decide)
      (by decide) (Or.inl ⟨by decide, by decide⟩)⟩

end SerumDex
